import Mathlib

/-!
# A verification development for the meddler struct/row mapping library

This file gives a shallow embedding, in Lean, of the core of the meddler
library (files `scan.go` and `loadsave.go`): the reflection-based descriptor
builder `getFields`, the value pipeline (`Columns`, `Values`, `SomeValues`,
`Targets`, `WriteTargets`), the cursor scanning functions (`scanRow`, `Scan`,
`ScanRow`, `ScanAll`) and the statement orchestration (`Load`, `Insert`,
`Update`, `Save`), together with theorems about them.

Modelling conventions:
* Go's reflected types are modelled by the inductive `GoType`; struct field
  lists are a bespoke list type `FieldList` (mutually inductive with `GoType`)
  so that all recursions stay structural.
* Go errors are the inductive `GoErr`; `fmt.Errorf` strings become
  `GoErr.errStr` with the same format text.  `pgx.ErrNoRows` is the dedicated
  constructor `GoErr.errNoRows`, and the `dbErr` wrapper of `loadsave.go` is
  `GoErr.dbE`.
* The process-wide meddler registry and the `Debug` flag are passed as
  explicit parameters (`reg`, `debug`); the reflection cache `fieldsCache` is
  pure memoisation and is not modelled (it never changes results).
* `log.Printf` output is modelled by returning the list of emitted lines.
* Executor (`DB`) calls are modelled by an oracle structure `DBModel`, and
  every function that may touch the executor also returns the list of calls
  it issued, in order.
-/

namespace meddler

/-- Go's `reflect.Kind`, restricted to the kinds the source inspects. -/
inductive Kind where
  | intK | int8K | int16K | int32K | int64K
  | uintK | uint8K | uint16K | uint32K | uint64K
  | float64K | stringK | boolK | timeK
  | ptrK | structK | sliceK | invalidK
  deriving DecidableEq, Repr

mutual

/-- Go types, as far as the source inspects them via reflection.  Struct
field lists are the mutually-inductive `FieldList` so that recursive
definitions over types remain structural. -/
inductive GoType where
  | prim (k : Kind)
  | ptr (elem : GoType)
  | strct (fields : FieldList)
  | slice (elem : GoType)

/-- A list of struct fields: name, PkgPath (nonempty iff unexported), the
`meddler` struct tag, the anonymous (embedded) flag, and the field type. -/
inductive FieldList where
  | nil
  | cons (fname pkgPath tag : String) (anon : Bool) (ftype : GoType) (rest : FieldList)

end

/-- A struct field as a plain structure, for list-based processing. -/
structure GoField where
  fname : String
  pkgPath : String := ""
  tag : String := ""
  anon : Bool := false
  ftype : GoType

/-- Convert a `FieldList` to an ordinary list of `GoField`. -/
def FieldList.toList : FieldList → List GoField
  | .nil => []
  | .cons n p t a ty rest => { fname := n, pkgPath := p, tag := t, anon := a, ftype := ty } :: rest.toList

/-- Convert an ordinary list of `GoField` back to a `FieldList`. -/
def FieldList.ofList : List GoField → FieldList
  | [] => .nil
  | f :: rest => .cons f.fname f.pkgPath f.tag f.anon f.ftype (FieldList.ofList rest)

theorem FieldList.toList_ofList (fs : List GoField) : (FieldList.ofList fs).toList = fs := by
  induction fs with
  | nil => rfl
  | cons f rest ih => simp [FieldList.ofList, FieldList.toList, ih]

/-- The `reflect.Kind` of a `GoType`. -/
def GoType.kindOf : GoType → Kind
  | .prim k => k
  | .ptr _ => .ptrK
  | .strct _ => .structK
  | .slice _ => .sliceK

mutual

/-- Go runtime values, as far as the claims observe them.  `vnull` stands for
a Go `nil` (both the `nil` interface value and a nil pointer). -/
inductive GoValue where
  | vint (i : Int)
  | vstr (s : String)
  | vbool (b : Bool)
  | vnull
  | vptr (v : GoValue)
  | vstruct (vs : GoValueList)

inductive GoValueList where
  | nil
  | cons (v : GoValue) (rest : GoValueList)

end

mutual

/-- The zero value of a Go type (what `reflect.New` produces per field). -/
def GoType.zeroValue : GoType → GoValue
  | .prim .stringK => .vstr ""
  | .prim .boolK => .vbool false
  | .prim _ => .vint 0
  | .ptr _ => .vnull
  | .strct fl => .vstruct fl.zeroValues
  | .slice _ => .vnull

def FieldList.zeroValues : FieldList → GoValueList
  | .nil => .nil
  | .cons _ _ _ _ ty rest => .cons ty.zeroValue rest.zeroValues

end

/-- Errors.  `errStr` is a `fmt.Errorf` string, `errNoRows` is the
`pgx.ErrNoRows` sentinel, and `dbE` is the `dbErr` wrapper of `loadsave.go`
(operation message plus original cause). -/
inductive GoErr where
  | errStr (s : String)
  | errNoRows
  | dbE (msg : String) (cause : GoErr)
  deriving DecidableEq, Repr

/-- The `Error()` rendering of an error (used where the source formats a
cause with `%v`).  `pgx.ErrNoRows` renders as pgx's message text. -/
def GoErr.message : GoErr → String
  | .errStr s => s
  | .errNoRows => "no rows in result set"
  | .dbE msg cause => msg ++ ": " ++ cause.message

/-- A rough rendering of a type for `%v` in error messages (the exact text of
these structural error messages is not load-bearing for any claim). -/
def GoType.typeName : GoType → String
  | .prim k => toString (repr k)
  | .ptr t => "*" ++ t.typeName
  | .strct _ => "struct"
  | .slice t => "[]" ++ t.typeName

/-- A meddler (value transformer): pre-write turns an in-memory field value
into a storable value; pre-read may veto producing a scan target for the
current field value; post-read finalises a raw scanned value into the new
field value.  (The concrete meddler implementations live in a file of the
repository that is not part of `src/`; the default ones below are modelled
from the spec.) -/
structure Meddler where
  preWrite : GoValue → Except GoErr GoValue
  preRead : GoValue → Except GoErr Unit
  postRead : GoValue → GoValue → Except GoErr GoValue

/-- The meddler registry: a mapping from names to transformer
implementations, passed explicitly (the source uses a process-wide map). -/
abbrev Registry := List (String × Meddler)

/-- The identity (pass-through) meddler.  Modelled from the spec:
"identity (pass-through)". -/
def identityMeddler : Meddler where
  preWrite v := .ok v
  preRead _ := .ok ()
  postRead _ raw := .ok raw

/-- Is a value a Go zero value? -/
def GoValue.isZero : GoValue → Bool
  | .vint i => i == 0
  | .vstr s => s == ""
  | .vbool b => !b
  | .vnull => true
  | _ => false

/-- A zero value of the same shape as a given value. -/
def GoValue.zeroLike : GoValue → GoValue
  | .vint _ => .vint 0
  | .vstr _ => .vstr ""
  | .vbool _ => .vbool false
  | _ => .vnull

/-- The zero-is-null meddler.  Modelled from the spec: "zero-is-null (maps a
zero value to/from a null marker)". -/
def zeroIsNullMeddler : Meddler where
  preWrite v := .ok (if v.isZero then .vnull else v)
  preRead _ := .ok ()
  postRead cur raw := .ok (match raw with | .vnull => cur.zeroLike | r => r)

/-- The UTC-timestamp meddler.  Modelled from the spec ("UTC-timestamp-as-
text"); no claim observes timestamp values, so value-wise it passes through. -/
def utcTimeZMeddler : Meddler := identityMeddler

/-- The registry contents installed by the library itself.  Modelled from the
spec: identity, zero-is-null and the UTC timestamp transformer are
pre-registered; callers may register more. -/
def defaultRegistry : Registry :=
  [("identity", identityMeddler), ("zeroisnull", zeroIsNullMeddler), ("utctimez", utcTimeZMeddler)]

/-- Whether a name is registered. -/
def regHas (reg : Registry) (name : String) : Bool :=
  (reg.lookup name).isSome

/-- The implementation bound to a registered name (descriptors built by
`getFields` only carry registered names, or "identity"). -/
def medImpl (reg : Registry) (name : String) : Meddler :=
  (reg.lookup name).getD identityMeddler

/-! ## Constants and helpers of `scan.go` -/

def Quote : String := "\""

def Placeholder : String := "$1"

def quoted (s : String) : String := Quote ++ s ++ Quote

/-- Replace the first occurrence of the character `pat` (Go
`strings.Replace(s, pat, rep, 1)` for a one-character needle). -/
def replaceFirstChar (pat : Char) (rep : String) : List Char → List Char
  | [] => []
  | c :: rest => if c = pat then rep.data ++ rest else c :: replaceFirstChar pat rep rest

/-- `placeholder` of `scan.go`: `strings.Replace(Placeholder, "1", itoa(n), 1)`
(the needle `"1"` is a single character). -/
def placeholder (n : Nat) : String := ⟨replaceFirstChar '1' (toString n) Placeholder.data⟩

/-- Go's `strings.Split(s, ",")` (a one-character separator): splitting the
empty string yields one empty token. -/
def splitCommaAux : List Char → List Char → List String
  | [], cur => [⟨cur.reverse⟩]
  | c :: rest, cur =>
    if c = ',' then (⟨cur.reverse⟩ : String) :: splitCommaAux rest []
    else splitCommaAux rest (c :: cur)

def splitComma (s : String) : List String := splitCommaAux s.data []

/-- `structField` of `scan.go`: one column of a descriptor.  The bound
meddler is stored by its (registered) name. -/
structure structField where
  column : String
  index : Nat
  primaryKey : Bool
  meddler : String
  deriving DecidableEq, Repr

/-- `structData` of `scan.go`: the compiled type descriptor.  The Go
`map[string]*structField` is modelled as the association list `fields`
(keyed by `structField.column`), which `getFields` grows in step with
`columns`. -/
structure structData where
  columns : List String
  fields : List structField
  pk : String
  deriving DecidableEq, Repr

/-- Lookup in the `fields` map of a descriptor. -/
def lookupField (fields : List structField) (name : String) : Option structField :=
  fields.find? (fun sf => sf.column == name)

/-! ## `getFields` (the descriptor builder of `src/scan.go`) -/

/-- Is a kind one of the integer kinds accepted for a primary key? -/
def isIntKind : Kind → Bool
  | .intK | .int8K | .int16K | .int32K | .int64K => true
  | .uintK | .uint8K | .uint16K | .uint32K | .uint64K => true
  | _ => false

/-- The modifier-token loop of `getFields` (the `for j := 1; ...` loop):
processes the tokens after the column name, returning the bound meddler name
and the possibly-updated primary-key column name (`data.pk`). -/
def parseTags (reg : Registry) (fname : String) (fkind : Kind) (name : String) :
    List String → String → String → Except GoErr (String × String)
  | [], med, pk => .ok (med, pk)
  | tok :: rest, med, pk =>
    if tok = "pk" then
      if fkind = .ptrK then
        .error (.errStr ("meddler found field " ++ fname ++
          " which is marked as the primary key but is a pointer"))
      else if !isIntKind fkind then
        .error (.errStr ("meddler found field " ++ fname ++
          " which is marked as the primary key, but is not an integer type"))
      else if pk ≠ "" then
        .error (.errStr ("meddler found field " ++ fname ++
          " which is marked as the primary key, but a primary key field was already found"))
      else
        parseTags reg fname fkind name rest med name
    else if regHas reg tok then
      parseTags reg fname fkind name rest tok pk
    else
      .error (.errStr ("meddler found field " ++ fname ++ " with meddler " ++ tok ++
        ", but that meddler is not registered"))

/-- The head token of a field's `meddler` tag (`strings.Split` of the empty
string yields one empty token, so the head always exists). -/
def tagHead (f : GoField) : String := (splitComma f.tag).headD ""

/-- The modifier tokens of a field's tag. -/
def tagMods (f : GoField) : List String := (splitComma f.tag).tail

/-- Is the field visible to the descriptor builder (exported and not marked
for skipping)? -/
def fieldVisible (f : GoField) : Bool := f.pkgPath == "" && tagHead f != "-"

/-- The column name a visible field maps to. -/
def colName (f : GoField) : String := if tagHead f = "" then f.fname else tagHead f

/-- The field loop of `getFields` (`for i := 0; i < structType.NumField()`). -/
def getFieldsLoop (reg : Registry) : List GoField → Nat → structData → Except GoErr structData
  | [], _, st => .ok st
  | f :: rest, i, st =>
    -- skip non-exported fields
    if f.pkgPath ≠ "" then getFieldsLoop reg rest (i + 1) st
    else
    -- was this field marked for skipping?
    if tagHead f = "-" then getFieldsLoop reg rest (i + 1) st
    else
      -- the tag can override the field name
      let name := colName f
      match parseTags reg f.fname f.ftype.kindOf name (tagMods f) "identity" st.pk with
      | .error e => .error e
      | .ok (med, pk') =>
        if (lookupField st.fields name).isSome then
          .error (.errStr ("meddler found multiple fields for column " ++ name))
        else
          getFieldsLoop reg rest (i + 1)
            { fields := st.fields ++
                [{ column := name, primaryKey := name == pk', index := i, meddler := med }],
              columns := st.columns ++ [name],
              pk := pk' }

/-- `getFields` of `src/scan.go`: gather the column list of a struct type.
The `fieldsCache` memoisation is omitted (it never changes the result). -/
def getFields (reg : Registry) (dstType : GoType) : Except GoErr structData :=
  match dstType with
  | .ptr (.strct fl) => getFieldsLoop reg fl.toList 0 ⟨[], [], ""⟩
  | .ptr t =>
    .error (.errStr ("meddler called with pointer to non-struct " ++ (GoType.ptr t).typeName))
  | t => .error (.errStr ("meddler called with non-pointer destination " ++ t.typeName))

/-! ## The embedding-capable descriptor builder

`embed_test.go` exercises a `getFields` whose `structField.index` is a
*path* (`[]int`) and which flattens embedded sub-structs; the file holding
that implementation is not under `src/`, so it is modelled here from the
spec (§4.1 of the specification). -/

/-- Modelled from the spec: a Field Descriptor whose `index` is a "path to
the field within the (possibly nested/composed) record — a sequence of
positional offsets" (the `structField` with `[]int` index used by
`embed_test.go`). -/
structure structFieldE where
  column : String
  index : List Nat
  primaryKey : Bool
  meddler : String
  deriving DecidableEq, Repr

/-- The descriptor produced by the embedding-capable builder. -/
structure structDataE where
  columns : List String
  fields : List structFieldE
  pk : String
  deriving DecidableEq, Repr

/-- Lookup in the `fields` map of an embedding-capable descriptor. -/
def lookupFieldE (fields : List structFieldE) (name : String) : Option structFieldE :=
  fields.find? (fun sf => sf.column == name)

/-- Modelled from the spec: process one non-embedded field at path `path` —
"parse the field's declared tag ... A first token equal to a skip marker
excludes the field entirely ... Record the resulting Field Descriptor keyed
by column name; a column-name collision ... is a ConfigurationError".  The
tag mini-language is parsed exactly as in `getFields` above. -/
def embedPlain (reg : Registry) (f : GoField) (path : List Nat) (st : structDataE) :
    Except GoErr structDataE :=
  if tagHead f = "-" then .ok st
  else
    let name := colName f
    match parseTags reg f.fname f.ftype.kindOf name (tagMods f) "identity" st.pk with
    | .error e => .error e
    | .ok (med, pk') =>
      if (lookupFieldE st.fields name).isSome then
        .error (.errStr ("meddler found multiple fields for column " ++ name))
      else
        let entry : structFieldE :=
          { column := name, index := path, primaryKey := name == pk', meddler := med }
        .ok { columns := st.columns ++ [name], fields := st.fields ++ [entry], pk := pk' }

mutual

/-- Modelled from the spec: "Walk declared fields in order" — the field walk
of the embedding-capable builder; `pfx` is the path of the struct being
walked and `i` the position of the next field within it. -/
def embedWalk (reg : Registry) : FieldList → List Nat → Nat → structDataE →
    Except GoErr structDataE
  | .nil, _, _, st => .ok st
  | .cons n pp tg anon ty rest, pfx, i, st =>
    match embedField reg n pp tg anon ty (pfx ++ [i]) st with
    | .error e => .error e
    | .ok st' => embedWalk reg rest pfx (i + 1) st'

/-- Modelled from the spec: handle one declared field, whose path is `path`.
"Skip fields not externally visible (unexported). ... If the field itself is
a composed/embedded sub-shape (including one level of optional/nullable
composition), recurse into it and splice its resulting fields into the
current list, each retaining a path prefixed with the composing field's own
position ... Otherwise, parse the field's declared tag." -/
def embedField (reg : Registry) (n pp tg : String) (anon : Bool) (ty : GoType)
    (path : List Nat) (st : structDataE) : Except GoErr structDataE :=
  if pp ≠ "" then .ok st
  else if anon then
    match ty with
    | .strct fl => embedWalk reg fl path 0 st
    | .ptr (.strct fl) => embedWalk reg fl path 0 st
    | _ => embedPlain reg ⟨n, pp, tg, anon, ty⟩ path st
  else embedPlain reg ⟨n, pp, tg, anon, ty⟩ path st

end

/-- Modelled from the spec: the embedding-capable `getFields` (the variant
`embed_test.go` tests, with path-valued field indices and transparent
flattening of embedded sub-shapes). -/
def getFieldsEmbed (reg : Registry) (dstType : GoType) : Except GoErr structDataE :=
  match dstType with
  | .ptr (.strct fl) => embedWalk reg fl [] 0 ⟨[], [], ""⟩
  | .ptr t =>
    .error (.errStr ("meddler called with pointer to non-struct " ++ (GoType.ptr t).typeName))
  | t => .error (.errStr ("meddler called with non-pointer destination " ++ t.typeName))

/-! ## Records -/

/-- A record value: `rtype` is `reflect.TypeOf(src)` (a pointer-to-struct
type), `values` the struct's field values in declaration order. -/
structure Record where
  rtype : GoType
  values : List GoValue

/-- The declared fields of a pointer-to-struct type. -/
def structFieldsOfPtr : GoType → List GoField
  | .ptr (.strct fl) => fl.toList
  | _ => []

/-- The reflect kind of the `i`-th declared field of a pointer-to-struct
type (`reflect.Invalid` when out of range). -/
def fieldKindAt (t : GoType) (i : Nat) : Kind :=
  match (structFieldsOfPtr t).get? i with
  | some f => f.ftype.kindOf
  | none => .invalidK

/-- Signed integer kinds (the first `case` of the pk kind switches). -/
def isSigned : Kind → Bool
  | .intK | .int8K | .int16K | .int32K | .int64K => true
  | _ => false

/-- Unsigned integer kinds (the second `case` of the pk kind switches). -/
def isUnsigned : Kind → Bool
  | .uintK | .uint8K | .uint16K | .uint32K | .uint64K => true
  | _ => false

/-- Read an integer-kinded field value (`reflect.Value.Int`/`Uint`). -/
def GoValue.asInt : GoValue → Int
  | .vint i => i
  | _ => 0

/-- Go's `int64(u)` for a `uint64` value `u` (two's-complement wrap). -/
def int64OfUint (u : Int) : Int :=
  let m := u % (2 ^ 64)
  if m < 2 ^ 63 then m else m - 2 ^ 64

/-- Go's `uint64(i)` for an `int64` value `i`. -/
def uint64OfInt (i : Int) : Int := i % (2 ^ 64)

/-! ## Columns, PrimaryKey, Values, Placeholders (`scan.go`) -/

/-- `Columns` of `scan.go`. -/
def Columns (reg : Registry) (src : Record) (includePk : Bool) : Except GoErr (List String) :=
  match getFields reg src.rtype with
  | .error e => .error e
  | .ok data => .ok (data.columns.filter (fun elt => !(!includePk && elt == data.pk)))

/-- `ColumnsQuoted` of `scan.go`. -/
def ColumnsQuoted (reg : Registry) (src : Record) (includePk : Bool) : Except GoErr String :=
  match Columns reg src includePk with
  | .error e => .error e
  | .ok unquoted => .ok (String.intercalate "," (unquoted.map quoted))

/-- `PrimaryKey` of `scan.go`: name and value of the primary key field
(name empty when no field is marked). -/
def PrimaryKey (reg : Registry) (src : Record) : Except GoErr (String × Int) :=
  match getFields reg src.rtype with
  | .error e => .error e
  | .ok data =>
    if data.pk = "" then .ok ("", 0)
    else
      let name := data.pk
      let idx := ((lookupField data.fields name).map structField.index).getD 0
      let fk := fieldKindAt src.rtype idx
      if isSigned fk then .ok (name, (src.values.getD idx .vnull).asInt)
      else if isUnsigned fk then .ok (name, int64OfUint (src.values.getD idx .vnull).asInt)
      else .error (.errStr ("meddler found field " ++ name ++
        " which is marked as the primary key, but is not an integer type"))

/-- `SetPrimaryKey` of `scan.go`. -/
def SetPrimaryKey (reg : Registry) (src : Record) (pk : Int) : Except GoErr Record :=
  match getFields reg src.rtype with
  | .error e => .error e
  | .ok data =>
    if data.pk = "" then .error (.errStr "meddler.SetPrimaryKey: no primary key field found")
    else
      let idx := ((lookupField data.fields data.pk).map structField.index).getD 0
      let fk := fieldKindAt src.rtype idx
      if isSigned fk then .ok { src with values := src.values.set idx (.vint pk) }
      else if isUnsigned fk then .ok { src with values := src.values.set idx (.vint (uint64OfInt pk)) }
      else .error (.errStr ("meddler found field " ++ data.pk ++
        " which is marked as the primary key, but is not an integer type"))

/-- The column loop of `SomeValues`.  The second component of the result is
the list of `log.Printf` lines emitted (only under `Debug`). -/
def someValuesLoop (reg : Registry) (debug : Bool) (data : structData) (vals : List GoValue) :
    List String → Except GoErr (List GoValue) × List String
  | [] => (.ok [], [])
  | name :: rest =>
    match lookupField data.fields name with
    | none =>
      -- write null to the database
      let (r, lg) := someValuesLoop reg debug data vals rest
      ((fun vs => GoValue.vnull :: vs) <$> r,
        (if debug then ["meddler.SomeValues: column [" ++ name ++ "] not found in struct"] else []) ++ lg)
    | some field =>
      match (medImpl reg field.meddler).preWrite (vals.getD field.index .vnull) with
      | .error e =>
        (.error (.errStr ("meddler.SomeValues: PreWrite error on column [" ++ name ++ "]: " ++
          e.message)), [])
      | .ok saveVal =>
        let (r, lg) := someValuesLoop reg debug data vals rest
        ((fun vs => saveVal :: vs) <$> r, lg)

/-- `SomeValues` of `scan.go`. -/
def SomeValues (reg : Registry) (debug : Bool) (src : Record) (columns : List String) :
    Except GoErr (List GoValue) × List String :=
  match getFields reg src.rtype with
  | .error e => (.error e, [])
  | .ok data => someValuesLoop reg debug data src.values columns

/-- `Values` of `scan.go`. -/
def Values (reg : Registry) (debug : Bool) (src : Record) (includePk : Bool) :
    Except GoErr (List GoValue) × List String :=
  match Columns reg src includePk with
  | .error e => (.error e, [])
  | .ok columns => SomeValues reg debug src columns

/-- The column loop of `Placeholders` (`sofar` is `len(placeholders)`). -/
def placeholdersLoop (pk : String) (includePk : Bool) :
    List String → Nat → List String
  | [], _ => []
  | name :: rest, sofar =>
    if !includePk && name == pk then placeholdersLoop pk includePk rest sofar
    else placeholder (sofar + 1) :: placeholdersLoop pk includePk rest (sofar + 1)

/-- `Placeholders` of `scan.go`. -/
def Placeholders (reg : Registry) (src : Record) (includePk : Bool) : Except GoErr (List String) :=
  match getFields reg src.rtype with
  | .error e => .error e
  | .ok data => .ok (placeholdersLoop data.pk includePk data.columns 0)

/-- `PlaceholdersString` of `scan.go`. -/
def PlaceholdersString (reg : Registry) (src : Record) (includePk : Bool) : Except GoErr String :=
  match Placeholders reg src includePk with
  | .error e => .error e
  | .ok lst => .ok (String.intercalate "," lst)

/-! ## Cursors (`*pgx.Rows`) -/

/-- A result cursor: the result-column names, the rows not yet consumed, the
iteration error the cursor will report once exhausted, and whether iteration
has already hit the end (`Err()` reports the error only then). -/
structure Rows where
  cols : List String
  rows : List (List GoValue)
  finalErr : Option GoErr
  done : Bool := false

/-- `rows.Next()`: advance to the next row if there is one. -/
def Rows.next (r : Rows) : Option (List GoValue) × Rows :=
  match r.rows with
  | [] => (none, { r with done := true })
  | v :: rest => (some v, { r with rows := rest })

/-- `rows.Err()`: the iteration error, visible once the cursor is
exhausted. -/
def Rows.errNow (r : Rows) : Option GoErr :=
  if r.done then r.finalErr else none

/-- A scan target as produced by `Targets`: either the (meddled) address of
field number `index`, or a throwaway placeholder for an unmatched column. -/
inductive ScanTarget where
  | fieldT (index : Nat) (meddler : String)
  | throwaway
  deriving DecidableEq, Repr

/-- The column loop of `Targets`. -/
def targetsLoop (reg : Registry) (debug : Bool) (data : structData) (vals : List GoValue) :
    List String → Except GoErr (List ScanTarget) × List String
  | [] => (.ok [], [])
  | name :: rest =>
    match lookupField data.fields name with
    | some field =>
      match (medImpl reg field.meddler).preRead (vals.getD field.index .vnull) with
      | .error e =>
        (.error (.errStr ("meddler.Targets: PreRead error on column " ++ name ++ ": " ++
          e.message)), [])
      | .ok _ =>
        let (r, lg) := targetsLoop reg debug data vals rest
        ((fun ts => ScanTarget.fieldT field.index field.meddler :: ts) <$> r, lg)
    | none =>
      -- no destination, so throw this away
      let (r, lg) := targetsLoop reg debug data vals rest
      ((fun ts => ScanTarget.throwaway :: ts) <$> r,
        (if debug then ["meddler.Targets: column [" ++ name ++ "] not found in struct"] else []) ++ lg)

/-- `Targets` of `scan.go`. -/
def Targets (reg : Registry) (debug : Bool) (dst : Record) (columns : List String) :
    Except GoErr (List ScanTarget) × List String :=
  match getFields reg dst.rtype with
  | .error e => (.error e, [])
  | .ok data => targetsLoop reg debug data dst.values columns

/-- The column loop of `WriteTargets`, over column names paired with the raw
values the driver scanned into the corresponding targets. -/
def writeTargetsLoop (reg : Registry) (debug : Bool) (data : structData) (rec : Record) :
    List (String × GoValue) → Except GoErr Record × List String
  | [] => (.ok rec, [])
  | (name, raw) :: rest =>
    match lookupField data.fields name with
    | some field =>
      match (medImpl reg field.meddler).postRead (rec.values.getD field.index .vnull) raw with
      | .error e =>
        (.error (.errStr ("meddler.WriteTargets: PostRead error on column [" ++ name ++ "]: " ++
          e.message)), [])
      | .ok v =>
        writeTargetsLoop reg debug data { rec with values := rec.values.set field.index v } rest
    | none =>
      -- not destination, so throw this away
      let (r, lg) := writeTargetsLoop reg debug data rec rest
      (r, (if debug then ["meddler.WriteTargets: column [" ++ name ++ "] not found in struct"]
        else []) ++ lg)

/-- `WriteTargets` of `scan.go`.  `targets` holds the raw values the driver
scanned into the targets returned by `Targets`. -/
def WriteTargets (reg : Registry) (debug : Bool) (dst : Record) (columns : List String)
    (targets : List GoValue) : Except GoErr Record × List String :=
  if columns.length ≠ targets.length then
    (.error (.errStr ("meddler.WriteTargets: mismatch in number of columns (" ++
      toString columns.length ++ ") and targets (" ++ toString targets.length ++ ")")), [])
  else
    match getFields reg dst.rtype with
    | .error e => (.error e, [])
    | .ok data => writeTargetsLoop reg debug data dst (columns.zip targets)

/-- `scanRow` of `scan.go`: scan a single row of data into a struct.  The
result carries the populated record, the advanced cursor, and the log lines
emitted.  (As in the source, the `data` parameter is not consulted: the
helpers re-derive the descriptor.) -/
def scanRow (reg : Registry) (debug : Bool) (data : structData) (rows : Rows) (dst : Record)
    (columns : List String) : Except GoErr Record × Rows × List String :=
  -- check if there is data waiting
  match rows.next with
  | (none, rows') =>
    match rows'.errNow with
    | some e => (.error e, rows', [])
    | none => (.error .errNoRows, rows', [])
  | (some row, rows') =>
    -- get a list of targets
    match Targets reg debug dst columns with
    | (.error e, lg) => (.error e, rows', lg)
    | (.ok targets, lg1) =>
      -- perform the scan: the driver fills each target with the matching
      -- result value, failing when the counts differ
      if targets.length ≠ row.length then
        (.error (.errStr "Scan received wrong number of arguments"), rows', lg1)
      else
        -- post-process and copy the target values into the struct
        match WriteTargets reg debug dst columns row with
        | (.error e, lg2) => (.error e, rows', lg1 ++ lg2)
        | (.ok rec, lg2) =>
          match rows'.errNow with
          | some e => (.error e, rows', lg1 ++ lg2)
          | none => (.ok rec, rows', lg1 ++ lg2)

/-- `Scan` of `scan.go`: scan a single result row into a struct, leaving the
cursor ready for the next row. -/
def Scan (reg : Registry) (debug : Bool) (rows : Rows) (dst : Record) :
    Except GoErr Record × Rows × List String :=
  match getFields reg dst.rtype with
  | .error e => (.error e, rows, [])
  | .ok data => scanRow reg debug data rows dst rows.cols

/-- `ScanRow` of `scan.go`: read exactly one row and close the cursor
(closing releases a resource and has no further observable effect here). -/
def ScanRow (reg : Registry) (debug : Bool) (rows : Rows) (dst : Record) :
    Except GoErr Record × Rows × List String :=
  Scan reg debug rows dst

/-- The gathering loop of `ScanAll`: repeatedly allocate a zero element,
`scanRow` into it, and append it to the accumulated slice, which is the
caller's out-parameter and therefore part of the result even when an error
stops the loop.  The `[]` case inlines what `scanRow` does on an exhausted
cursor (`ErrNoRows`, or the cursor's own iteration error), which is where
the loop stops. -/
def scanAllLoop (reg : Registry) (debug : Bool) (data : structData) (cols : List String)
    (finalErr : Option GoErr) (eltFields : List GoField) (eltType : GoType) :
    List (List GoValue) → List Record → Option GoErr × List Record × List String
  | [], acc =>
    match finalErr with
    | some e => if e = .errNoRows then (none, acc, []) else (some e, acc, [])
    | none => (none, acc, [])
  | row :: rest, acc =>
    -- create a new element
    let elt : Record := ⟨GoType.ptr eltType, eltFields.map (fun f => f.ftype.zeroValue)⟩
    -- scan it
    match scanRow reg debug data ⟨cols, row :: rest, finalErr, false⟩ elt cols with
    | (.error e, _, lg) => (if e = .errNoRows then none else some e, acc, lg)
    | (.ok rec, _, lg) =>
      -- add to the result slice
      let (r, acc', lg') :=
        scanAllLoop reg debug data cols finalErr eltFields eltType rest (acc ++ [rec])
      (r, acc', lg ++ lg')

/-- `ScanAll` of `scan.go`: scan all rows into a slice of structs, appending
to any existing data.  `dstType` is the reflected type of `dst` (expected:
pointer to slice of struct pointers), `elems` its current contents; the
middle component of the result is the slice's contents afterwards. -/
def ScanAll (reg : Registry) (debug : Bool) (rows : Rows) (dstType : GoType)
    (elems : List Record) : Option GoErr × List Record × List String :=
  match dstType with
  | .ptr sliceT =>
    match sliceT with
    | .slice ptrT =>
      match ptrT with
      | .ptr eltT =>
        match eltT with
        | .strct fl =>
          -- get the list of struct fields
          match getFields reg (.ptr (.strct fl)) with
          | .error e => (some e, elems, [])
          | .ok data =>
            scanAllLoop reg debug data rows.cols rows.finalErr fl.toList (.strct fl)
              rows.rows elems
        | _ => (some (.errStr "ScanAll expects element to be pointers to structs"), elems, [])
      | _ => (some (.errStr "ScanAll expects element to be pointers"), elems, [])
    | _ => (some (.errStr "ScanAll called with pointer to non-slice"), elems, [])
  | _ => (some (.errStr "ScanAll called with non-pointer destination"), elems, [])

/-! ## The executor (`loadsave.go`) -/

/-- One call issued to the executor (or to a cached prepared statement). -/
inductive ExecCall where
  | exec (q : String) (args : List GoValue)
  | query (q : String) (args : List GoValue)
  | queryRow (q : String) (args : List GoValue)
  | stmtExec (q : String) (args : List GoValue)
  | stmtQuery (q : String) (args : List GoValue)
  | stmtQueryRow (q : String) (args : List GoValue)

/-- The result of `Exec` (`sql.Result`). -/
structure ExecResult where
  lastInsertId : Except GoErr Int

/-- A cached prepared statement (what `StmtCacheFunc` may return): the same
three operations, bound to a fixed statement text.  For `queryRow` the value
is the outcome of `row.Scan(&newPk)`. -/
structure StmtOps where
  exec : List GoValue → Except GoErr ExecResult
  query : List GoValue → Except GoErr Rows
  queryRow : List GoValue → Except GoErr Int

/-- The executor oracle: deterministic responses for each operation, plus the
optional global statement-cache hook. -/
structure DBModel where
  exec : String → List GoValue → Except GoErr ExecResult
  query : String → List GoValue → Except GoErr Rows
  queryRow : String → List GoValue → Except GoErr Int
  stmtCacheFunc : Option (String → Except GoErr (Option StmtOps)) := none

/-- `runQuery` of `loadsave.go`, together with the executor calls issued. -/
def runQuery (db : DBModel) (q : String) (args : List GoValue) :
    Except GoErr Rows × List ExecCall :=
  match db.stmtCacheFunc with
  | some f =>
    match f q with
    | .error e => (.error e, [])
    | .ok (some stmt) => (stmt.query args, [.stmtQuery q args])
    | .ok none => (db.query q args, [.query q args])
  | none => (db.query q args, [.query q args])

/-- `runQueryRow` of `loadsave.go`.  The outer `Except` is `runQueryRow`'s
own error (the statement-cache hook); the inner one is the later outcome of
`row.Scan`. -/
def runQueryRow (db : DBModel) (q : String) (args : List GoValue) :
    Except GoErr (Except GoErr Int) × List ExecCall :=
  match db.stmtCacheFunc with
  | some f =>
    match f q with
    | .error e => (.error e, [])
    | .ok (some stmt) => (.ok (stmt.queryRow args), [.stmtQueryRow q args])
    | .ok none => (.ok (db.queryRow q args), [.queryRow q args])
  | none => (.ok (db.queryRow q args), [.queryRow q args])

/-- `runExec` of `loadsave.go`. -/
def runExec (db : DBModel) (q : String) (args : List GoValue) :
    Except GoErr ExecResult × List ExecCall :=
  match db.stmtCacheFunc with
  | some f =>
    match f q with
    | .error e => (.error e, [])
    | .ok (some stmt) => (stmt.exec args, [.stmtExec q args])
    | .ok none => (db.exec q args, [.exec q args])
  | none => (db.exec q args, [.exec q args])

/-! ## Load / Insert / Update / Save (`loadsave.go`)

The `Database` object `d` of `loadsave.go` is modelled by its only
configuration bit used here, `UseReturningToGetID`; its methods
(`d.Columns`, `d.quoted`, `d.Placeholder`, ...) are the functions of
`scan.go` above.  Each orchestrator returns the (possibly updated) record,
the executor calls issued, and the log lines emitted. -/

/-- `Load` of `loadsave.go`. -/
def Load (reg : Registry) (debug : Bool) (db : DBModel) (table : String) (dst : Record)
    (pk : Int) : Except GoErr Record × List ExecCall × List String :=
  match ColumnsQuoted reg dst true with
  | .error e => (.error e, [], [])
  | .ok columns =>
    -- make sure we have a primary key field
    match PrimaryKey reg dst with
    | .error e => (.error e, [], [])
    | .ok (pkName, _) =>
      if pkName = "" then (.error (.errStr "meddler.Load: no primary key field found"), [], [])
      else
        -- run the query
        let q := "SELECT " ++ columns ++ " FROM " ++ quoted table ++ " WHERE " ++
          quoted pkName ++ " = " ++ Placeholder
        match runQuery db q [.vint pk] with
        | (.error e, calls) => (.error (.dbE "meddler.Load: DB error in Query" e), calls, [])
        | (.ok rows, calls) =>
          -- scan the row
          let (res, _, lgs) := ScanRow reg debug rows dst
          (res, calls, lgs)

/-- `Insert` of `loadsave.go`. -/
def Insert (reg : Registry) (debug : Bool) (useReturningToGetID : Bool) (db : DBModel)
    (table : String) (src : Record) : Except GoErr Record × List ExecCall × List String :=
  match PrimaryKey reg src with
  | .error e => (.error e, [], [])
  | .ok (pkName, pkValue) =>
    if pkName != "" && pkValue != 0 then
      (.error (.errStr "meddler.Insert: primary key must be zero"), [], [])
    else
      -- gather the query parts
      match ColumnsQuoted reg src false with
      | .error e => (.error e, [], [])
      | .ok namesPart =>
        match PlaceholdersString reg src false with
        | .error e => (.error e, [], [])
        | .ok valuesPart =>
          match Values reg debug src false with
          | (.error e, lg) => (.error e, [], lg)
          | (.ok values, lg) =>
            -- run the query
            let q := "INSERT INTO " ++ quoted table ++ " (" ++ namesPart ++ ") VALUES (" ++
              valuesPart ++ ")"
            if useReturningToGetID && pkName != "" then
              let q := q ++ " RETURNING " ++ quoted pkName
              match runQueryRow db q values with
              | (.error e, calls) => (.error e, calls, lg)
              | (.ok row, calls) =>
                match row with
                | .error e => (.error (.dbE "meddler.Insert: DB error in QueryRow" e), calls, lg)
                | .ok newPk =>
                  match SetPrimaryKey reg src newPk with
                  | .error e =>
                    (.error (.errStr ("meddler.Insert: Error saving updated pk: " ++ e.message)),
                      calls, lg)
                  | .ok src' => (.ok src', calls, lg)
            else if pkName != "" then
              match runExec db q values with
              | (.error e, calls) => (.error (.dbE "meddler.Insert: DB error in Exec" e), calls, lg)
              | (.ok result, calls) =>
                -- save the new primary key
                match result.lastInsertId with
                | .error e =>
                  (.error (.dbE "meddler.Insert: DB error getting new primary key value" e),
                    calls, lg)
                | .ok newPk =>
                  match SetPrimaryKey reg src newPk with
                  | .error e =>
                    (.error (.errStr ("meddler.Insert: Error saving updated pk: " ++ e.message)),
                      calls, lg)
                  | .ok src' => (.ok src', calls, lg)
            else
              -- no primary key, so no need to lookup new value
              match runExec db q values with
              | (.error e, calls) => (.error (.dbE "meddler.Insert: DB error in Exec" e), calls, lg)
              | (.ok _, calls) => (.ok src, calls, lg)

/-- `Update` of `loadsave.go`. -/
def Update (reg : Registry) (debug : Bool) (db : DBModel) (table : String) (src : Record) :
    Except GoErr Record × List ExecCall × List String :=
  -- gather the query parts
  match Columns reg src false with
  | .error e => (.error e, [], [])
  | .ok names =>
    match Placeholders reg src false with
    | .error e => (.error e, [], [])
    | .ok phs =>
      match Values reg debug src false with
      | (.error e, lg) => (.error e, [], lg)
      | (.ok values, lg) =>
        -- form the column=placeholder pairs
        let pairs := (names.zip phs).map (fun p => quoted p.1 ++ "=" ++ p.2)
        match PrimaryKey reg src with
        | .error e => (.error e, [], lg)
        | .ok (pkName, pkValue) =>
          if pkName = "" then (.error (.errStr "meddler.Update: no primary key field"), [], lg)
          else if pkValue < 1 then
            (.error (.errStr "meddler.Update: primary key must be an integer > 0"), [], lg)
          else
            let ph := placeholder (phs.length + 1)
            -- run the query
            let q := "UPDATE " ++ quoted table ++ " SET " ++ String.intercalate "," pairs ++
              " WHERE " ++ quoted pkName ++ "=" ++ ph
            match runExec db q (values ++ [.vint pkValue]) with
            | (.error e, calls) => (.error (.dbE "meddler.Update: DB error in Exec" e), calls, lg)
            | (.ok _, calls) => (.ok src, calls, lg)

/-- `Save` of `loadsave.go`: INSERT or UPDATE depending on whether a primary
key exists and is non-zero. -/
def Save (reg : Registry) (debug : Bool) (useReturningToGetID : Bool) (db : DBModel)
    (table : String) (src : Record) : Except GoErr Record × List ExecCall × List String :=
  match PrimaryKey reg src with
  | .error e => (.error e, [], [])
  | .ok (pkName, pkValue) =>
    if pkName != "" && pkValue != 0 then Update reg debug db table src
    else Insert reg debug useReturningToGetID db table src

/-! ## Concrete fixtures used by witnesses -/

/-- The shape `{ID int64 "id,pk"; Name string "name"}` of the Load
scenario. -/
def personType : GoType :=
  .ptr (.strct (.cons "ID" "" "id,pk" false (.prim .int64K)
    (.cons "Name" "" "name" false (.prim .stringK) .nil)))

/-- A shape with no primary-key field. -/
def noPkType : GoType :=
  .ptr (.strct (.cons "Name" "" "name" false (.prim .stringK) .nil))

/-- An executor that answers every operation with an error (used where the
point is that it must never be reached). -/
def dummyDB : DBModel where
  exec _ _ := .error (.errStr "unexpected Exec")
  query _ _ := .error (.errStr "unexpected Query")
  queryRow _ _ := .error (.errStr "unexpected QueryRow")

/-- The statement the Load scenario must issue. -/
def loadQuery : String := "SELECT \"id\",\"name\" FROM \"t\" WHERE \"id\" = $1"

/-- An executor holding the single row (5, "a") behind the scenario's
SELECT. -/
def loadDB : DBModel where
  exec _ _ := .error (.errStr "unexpected Exec")
  queryRow _ _ := .error (.errStr "unexpected QueryRow")
  query q _ :=
    if q = loadQuery then .ok ⟨["id", "name"], [[.vint 5, .vstr "a"]], none, false⟩
    else .error (.errStr "unexpected Query")

/-! ## Spec-side helpers for stating shape-level properties -/

/-- The ordered column names contributed by the exported, non-excluded
fields of a declared field list. -/
def visibleCols (fs : List GoField) : List String :=
  (fs.filter (fun f => fieldVisible f)).map colName

/-- Does a field's tag carry the primary-key marker? -/
def pkTagged (f : GoField) : Bool := decide ("pk" ∈ tagMods f)

/-- Is a type an embeddable sub-shape (a struct, possibly behind one level
of pointer)? -/
def isEmbeddable : GoType → Bool
  | .strct _ => true
  | .ptr (.strct _) => true
  | _ => false

/-- A plain simple field: nonempty name, a tag with no modifier tokens, and
not an embedded sub-struct. -/
def simplePlain (f : GoField) : Bool :=
  f.fname != "" && (tagMods f).isEmpty && !(f.anon && isEmbeddable f.ftype)

/-- The field descriptors the flattening walk produces for a run of plain
simple fields starting at position `i` under path prefix `pfx`, with no
primary key in play. -/
def plainEntries (pfx : List Nat) : List GoField → Nat → List structFieldE
  | [], _ => []
  | f :: rest, i =>
    if fieldVisible f then
      ⟨colName f, pfx ++ [i], false, "identity"⟩ :: plainEntries pfx rest (i + 1)
    else plainEntries pfx rest (i + 1)

/-! ## C10: exhausted cursors report the iteration error, not the sentinel -/

/-- C10: in a single-row scan, when advancing the cursor yields no row,
`scanRow` returns the cursor's own iteration error if it reports one, and
returns the `ErrNoRows` sentinel only when the cursor ended cleanly. -/
theorem scanRow_exhausted_error_not_sentinel (reg : Registry) (debug : Bool)
    (data : structData) (rows : Rows) (dst : Record) (columns : List String)
    (h : rows.rows = []) :
    (∀ e, rows.finalErr = some e →
      (scanRow reg debug data rows dst columns).1 = .error e) ∧
    (rows.finalErr = none →
      (scanRow reg debug data rows dst columns).1 = .error .errNoRows) := by
  constructor
  · intro e he
    simp [scanRow, Rows.next, h, Rows.errNow, he]
  · intro he
    simp [scanRow, Rows.next, h, Rows.errNow, he]

/-- Witness for C10 at a concrete exhausted cursor with an iteration
error. -/
theorem scanRow_exhausted_error_not_sentinel_witness :
    ((⟨["id"], [], some (.errStr "broken connection"), false⟩ : Rows).rows = []) ∧
    (scanRow defaultRegistry true ⟨[], [], ""⟩
      ⟨["id"], [], some (.errStr "broken connection"), false⟩
      ⟨noPkType, [.vstr ""]⟩ ["id"]).1 = .error (.errStr "broken connection") :=
  ⟨rfl,
    (scanRow_exhausted_error_not_sentinel defaultRegistry true ⟨[], [], ""⟩
      ⟨["id"], [], some (.errStr "broken connection"), false⟩
      ⟨noPkType, [.vstr ""]⟩ ["id"] rfl).1 (.errStr "broken connection") rfl⟩

/-! ## C3: Insert with a nonzero primary key -/

/-- C3: when the shape declares a primary-key field and its current value is
nonzero, `Insert` returns the precondition error and issues no executor
call. -/
theorem Insert_nonzero_pk_rejected_before_executor (reg : Registry) (debug : Bool)
    (useReturningToGetID : Bool) (db : DBModel) (table : String) (src : Record)
    (pkName : String) (pkValue : Int)
    (h : PrimaryKey reg src = .ok (pkName, pkValue)) (hn : pkName ≠ "") (hv : pkValue ≠ 0) :
    Insert reg debug useReturningToGetID db table src =
      (.error (.errStr "meddler.Insert: primary key must be zero"), [], []) := by
  simp [Insert, h, hn, hv]

/-- Witness for C3: a record of the pk-carrying shape with pk value 5. -/
theorem Insert_nonzero_pk_rejected_before_executor_witness :
    PrimaryKey defaultRegistry ⟨personType, [.vint 5, .vstr "a"]⟩ = .ok ("id", 5) ∧
    Insert defaultRegistry true true dummyDB "person" ⟨personType, [.vint 5, .vstr "a"]⟩ =
      (.error (.errStr "meddler.Insert: primary key must be zero"), [], []) :=
  ⟨rfl,
    Insert_nonzero_pk_rejected_before_executor defaultRegistry true true dummyDB "person"
      ⟨personType, [.vint 5, .vstr "a"]⟩ "id" 5 rfl (by decide) (by decide)⟩

/-! ## C5: Save dispatches on the primary key's current state alone -/

/-- C5: `Save` behaves exactly like `Update` when a primary-key field exists
and its current value is nonzero, and exactly like `Insert` otherwise
(including when reading the primary key fails: `Insert` begins with the very
same read and fails identically). -/
theorem Save_dispatches_on_pk_state (reg : Registry) (debug : Bool)
    (useReturningToGetID : Bool) (db : DBModel) (table : String) (src : Record) :
    Save reg debug useReturningToGetID db table src =
      match PrimaryKey reg src with
      | .ok (pkName, pkValue) =>
        if pkName != "" && pkValue != 0 then Update reg debug db table src
        else Insert reg debug useReturningToGetID db table src
      | .error _ => Insert reg debug useReturningToGetID db table src := by
  cases h : PrimaryKey reg src with
  | error e => simp [Save, Insert, h]
  | ok p => cases p with | mk n v => simp [Save, h]

/-! ## C4: Update requires a positive primary key -/

/-- C4: when the shape declares no primary-key field, or the primary-key
field's current value is not positive (in particular 0), `Update` invokes no
executor operation and returns an error; when the value pipeline itself
succeeds, that error is the respective precondition error. -/
theorem Update_pk_precondition_rejected (reg : Registry) (debug : Bool) (db : DBModel)
    (table : String) (src : Record) (pkName : String) (pkValue : Int)
    (h : PrimaryKey reg src = .ok (pkName, pkValue))
    (hbad : pkName = "" ∨ pkValue < 1) :
    (Update reg debug db table src).2.1 = [] ∧
    (∃ e, (Update reg debug db table src).1 = .error e) ∧
    (∀ vs lg, Values reg debug src false = (.ok vs, lg) →
      (Update reg debug db table src).1 = .error (.errStr
        (if pkName = "" then "meddler.Update: no primary key field"
         else "meddler.Update: primary key must be an integer > 0"))) := by
  cases hg : getFields reg src.rtype with
  | error e => simp [PrimaryKey, hg] at h
  | ok data =>
    have hc : Columns reg src false =
        .ok (data.columns.filter (fun elt => !(!false && elt == data.pk))) := by
      simp [Columns, hg]
    have hp : Placeholders reg src false =
        .ok (placeholdersLoop data.pk false data.columns 0) := by
      simp [Placeholders, hg]
    cases hv : Values reg debug src false with
    | mk r lg =>
      cases r with
      | error e =>
        have hu : Update reg debug db table src = (.error e, [], lg) := by
          simp [Update, hc, hp, hv]
        exact ⟨by simp [hu], ⟨e, by simp [hu]⟩, fun vs lg' hvs => absurd hvs (by simp)⟩
      | ok vs =>
        by_cases hn : pkName = ""
        · have hu : Update reg debug db table src =
              (.error (.errStr "meddler.Update: no primary key field"), [], lg) := by
            simp [Update, hc, hp, hv, h, hn]
          exact ⟨by simp [hu], ⟨.errStr "meddler.Update: no primary key field", by simp [hu]⟩,
            fun _ _ _ => by simp [hu, hn]⟩
        · have hlt : pkValue < 1 := by
            rcases hbad with hb | hb
            · exact absurd hb hn
            · exact hb
          have hu : Update reg debug db table src =
              (.error (.errStr "meddler.Update: primary key must be an integer > 0"), [], lg) := by
            simp [Update, hc, hp, hv, h, hn, hlt]
          exact ⟨by simp [hu],
            ⟨.errStr "meddler.Update: primary key must be an integer > 0", by simp [hu]⟩,
            fun _ _ _ => by simp [hu, hn]⟩

/-- Witness for C4: the pk-carrying shape with pk value 0. -/
theorem Update_pk_precondition_rejected_witness :
    PrimaryKey defaultRegistry ⟨personType, [.vint 0, .vstr "a"]⟩ = .ok ("id", 0) ∧
    ((Update defaultRegistry true dummyDB "person" ⟨personType, [.vint 0, .vstr "a"]⟩).2.1 = [] ∧
      (∃ e, (Update defaultRegistry true dummyDB "person"
        ⟨personType, [.vint 0, .vstr "a"]⟩).1 = .error e) ∧
      (∀ vs lg,
        Values defaultRegistry true ⟨personType, [.vint 0, .vstr "a"]⟩ false = (.ok vs, lg) →
        (Update defaultRegistry true dummyDB "person" ⟨personType, [.vint 0, .vstr "a"]⟩).1 =
          .error (.errStr
            (if ("id" : String) = "" then "meddler.Update: no primary key field"
             else "meddler.Update: primary key must be an integer > 0")))) :=
  ⟨rfl,
    Update_pk_precondition_rejected defaultRegistry true dummyDB "person"
      ⟨personType, [.vint 0, .vstr "a"]⟩ "id" 0 rfl (Or.inr (by decide))⟩

/-! ## C6: the Load scenario and its no-pk configuration error -/

/-- C6: on the shape `{ID int64 "id,pk"; Name string "name"}`, `Load` with
table `"t"` and key 5 issues exactly `SELECT "id","name" FROM "t" WHERE
"id" = $1` with argument list `[5]`, and with the executor returning the row
(5, "a") the destination afterwards holds ID=5, Name="a"; on a shape whose
descriptor has no primary-key column, `Load` returns the configuration error
without touching the executor. -/
theorem Load_scenario_and_no_pk_configuration_error :
    Load defaultRegistry true loadDB "t" ⟨personType, [.vint 0, .vstr ""]⟩ 5 =
      (.ok ⟨personType, [.vint 5, .vstr "a"]⟩, [.query loadQuery [.vint 5]], []) ∧
    (∀ (reg : Registry) (debug : Bool) (db : DBModel) (table : String) (dst : Record)
      (pk : Int) (data : structData),
      getFields reg dst.rtype = .ok data → data.pk = "" →
      Load reg debug db table dst pk =
        (.error (.errStr "meddler.Load: no primary key field found"), [], [])) := by
  constructor
  · rfl
  · intro reg debug db table dst pk data hg hpk
    simp [Load, ColumnsQuoted, Columns, PrimaryKey, hg, hpk]

/-- Witness for C6's quantified part at a concrete pk-less shape. -/
theorem Load_scenario_and_no_pk_configuration_error_witness :
    getFields defaultRegistry noPkType = .ok ⟨["name"], [⟨"name", 0, false, "identity"⟩], ""⟩ ∧
    Load defaultRegistry true dummyDB "t" ⟨noPkType, [.vstr "x"]⟩ 1 =
      (.error (.errStr "meddler.Load: no primary key field found"), [], []) :=
  ⟨rfl,
    Load_scenario_and_no_pk_configuration_error.2 defaultRegistry true dummyDB "t"
      ⟨noPkType, [.vstr "x"]⟩ 1 ⟨["name"], [⟨"name", 0, false, "identity"⟩], ""⟩ rfl rfl⟩

/-! ## C9: diagnostics are observational; a row scan logs twice per
unmatched column -/

theorem targetsLoop_logs_debug_false (reg : Registry) (data : structData)
    (vals : List GoValue) : ∀ cols, (targetsLoop reg false data vals cols).2 = [] := by
  intro cols
  induction cols with
  | nil => rfl
  | cons name rest ih =>
    simp only [targetsLoop]
    cases hf : lookupField data.fields name with
    | some field =>
      simp only [hf]
      cases hw : (medImpl reg field.meddler).preRead (vals.getD field.index GoValue.vnull) with
      | error e => simp only [hw]
      | ok u => simp only [hw]; simpa using ih
    | none => simp only [hf]; simpa using ih

theorem targetsLoop_fst_debug_indep (reg : Registry) (data : structData)
    (vals : List GoValue) : ∀ cols (d1 d2 : Bool),
    (targetsLoop reg d1 data vals cols).1 = (targetsLoop reg d2 data vals cols).1 := by
  intro cols
  induction cols with
  | nil => intro d1 d2; rfl
  | cons name rest ih =>
    intro d1 d2
    simp only [targetsLoop]
    cases hf : lookupField data.fields name with
    | some field =>
      simp only [hf]
      cases hw : (medImpl reg field.meddler).preRead (vals.getD field.index GoValue.vnull) with
      | error e => simp only [hw]
      | ok u => simp only [hw]; simp [ih d1 d2]
    | none => simp only [hf]; simp [ih d1 d2]

theorem targetsLoop_logs_length_of_ok (reg : Registry) (data : structData)
    (vals : List GoValue) : ∀ cols ts lg,
    targetsLoop reg true data vals cols = (.ok ts, lg) →
    lg.length = (cols.filter (fun n => (lookupField data.fields n).isNone)).length := by
  intro cols
  induction cols with
  | nil =>
    intro ts lg h
    simp only [targetsLoop] at h
    have hlg : ([] : List String) = lg := congrArg Prod.snd h
    simp [← hlg]
  | cons name rest ih =>
    intro ts lg h
    simp only [targetsLoop] at h
    cases hf : lookupField data.fields name with
    | some field =>
      simp only [hf] at h
      cases hw : (medImpl reg field.meddler).preRead (vals.getD field.index GoValue.vnull) with
      | error e => simp only [hw] at h; exact absurd h (by simp)
      | ok u =>
        simp only [hw] at h
        cases ht : targetsLoop reg true data vals rest with
        | mk r lg' =>
          rw [ht] at h
          cases r with
          | error e => simp at h
          | ok ts' =>
            simp only [Except.map_ok, Prod.mk.injEq] at h
            have hlen := ih ts' lg' (by rw [ht])
            simp [List.filter, hf, ← h.2, hlen]
    | none =>
      simp only [hf] at h
      cases ht : targetsLoop reg true data vals rest with
      | mk r lg' =>
        rw [ht] at h
        cases r with
        | error e => simp at h
        | ok ts' =>
          simp only [Except.map_ok, Prod.mk.injEq] at h
          have hlen := ih ts' lg' (by rw [ht])
          simp [List.filter, hf, ← h.2, hlen]

theorem writeTargetsLoop_logs_debug_false (reg : Registry) (data : structData) :
    ∀ prs rec, (writeTargetsLoop reg false data rec prs).2 = [] := by
  intro prs
  induction prs with
  | nil => intro rec; rfl
  | cons p rest ih =>
    intro rec
    cases p with
    | mk name raw =>
      simp only [writeTargetsLoop]
      cases hf : lookupField data.fields name with
      | some field =>
        simp only [hf]
        cases hw : (medImpl reg field.meddler).postRead
            (rec.values.getD field.index GoValue.vnull) raw with
        | error e => simp only [hw]
        | ok v => simp only [hw]; exact ih _
      | none => simp only [hf]; simpa using ih rec

theorem writeTargetsLoop_fst_debug_indep (reg : Registry) (data : structData) :
    ∀ prs rec (d1 d2 : Bool),
    (writeTargetsLoop reg d1 data rec prs).1 = (writeTargetsLoop reg d2 data rec prs).1 := by
  intro prs
  induction prs with
  | nil => intro rec d1 d2; rfl
  | cons p rest ih =>
    intro rec d1 d2
    cases p with
    | mk name raw =>
      simp only [writeTargetsLoop]
      cases hf : lookupField data.fields name with
      | some field =>
        simp only [hf]
        cases hw : (medImpl reg field.meddler).postRead
            (rec.values.getD field.index GoValue.vnull) raw with
        | error e => simp only [hw]
        | ok v => simp only [hw]; exact ih _ d1 d2
      | none => simp only [hf]; simp [ih rec d1 d2]

theorem writeTargetsLoop_logs_length_of_ok (reg : Registry) (data : structData) :
    ∀ prs rec r lg, writeTargetsLoop reg true data rec prs = (.ok r, lg) →
    lg.length =
      ((prs.filter (fun p => (lookupField data.fields p.1).isNone)).length) := by
  intro prs
  induction prs with
  | nil =>
    intro rec r lg h
    simp only [writeTargetsLoop] at h
    have hlg : ([] : List String) = lg := congrArg Prod.snd h
    simp [← hlg]
  | cons p rest ih =>
    intro rec r lg h
    cases p with
    | mk name raw =>
      simp only [writeTargetsLoop] at h
      cases hf : lookupField data.fields name with
      | some field =>
        simp only [hf] at h
        cases hw : (medImpl reg field.meddler).postRead
            (rec.values.getD field.index GoValue.vnull) raw with
        | error e => simp only [hw] at h; exact absurd h (by simp)
        | ok v =>
          simp only [hw] at h
          have hlen := ih _ _ _ h
          simp [List.filter, hf, hlen]
      | none =>
        simp only [hf] at h
        cases ht : writeTargetsLoop reg true data rec rest with
        | mk r' lg' =>
          rw [ht] at h
          simp only [Prod.mk.injEq] at h
          have hlen := ih rec r lg' (by rw [ht, h.1])
          simp [List.filter, hf, ← h.2, hlen]

theorem zip_filter_isNone_length (data : structData) :
    ∀ (cols : List String) (row : List GoValue), cols.length = row.length →
    ((cols.zip row).filter (fun p => (lookupField data.fields p.1).isNone)).length =
    (cols.filter (fun n => (lookupField data.fields n).isNone)).length := by
  intro cols
  induction cols with
  | nil => intro row h; simp
  | cons n rest ih =>
    intro row h
    cases row with
    | nil => simp at h
    | cons v rvs =>
      simp at h
      have hih := ih rvs h
      cases hf : (lookupField data.fields n).isNone with
      | true => simpa [List.filter_cons, hf] using hih
      | false => simpa [List.filter_cons, hf] using hih

/-- C9 counterexample: with exactly one unmatched result column and Debug
on, a single-row scan emits two diagnostic lines (one while building scan
targets, one while writing them back), not exactly one per unmatched column
per row. -/
theorem scanRow_diagnostics_counterexample :
    (scanRow defaultRegistry true ⟨["name"], [⟨"name", 0, false, "identity"⟩], ""⟩
      ⟨["name", "extra"], [[.vstr "a", .vint 1]], none, false⟩
      ⟨noPkType, [.vstr ""]⟩ ["name", "extra"]).2.2 =
      ["meddler.Targets: column [extra] not found in struct",
       "meddler.WriteTargets: column [extra] not found in struct"] ∧
    ¬((scanRow defaultRegistry true ⟨["name"], [⟨"name", 0, false, "identity"⟩], ""⟩
      ⟨["name", "extra"], [[.vstr "a", .vint 1]], none, false⟩
      ⟨noPkType, [.vstr ""]⟩ ["name", "extra"]).2.2.length = 1) :=
  ⟨rfl, by decide⟩

/-- C9 (amended): a single-row scan emits no diagnostic when Debug is off;
the scan outcome is the same whether Debug is on or off; and on a successful
scan with Debug on, exactly two diagnostic lines are emitted per unmatched
column per row — one from target building, one from write-back. -/
theorem scanRow_debug_observational_two_lines (reg : Registry) (data : structData)
    (rows : Rows) (dst : Record) (columns : List String) (d : structData)
    (hg : getFields reg dst.rtype = .ok d) :
    (scanRow reg false data rows dst columns).2.2 = [] ∧
    (scanRow reg true data rows dst columns).1 = (scanRow reg false data rows dst columns).1 ∧
    (∀ rec, (scanRow reg true data rows dst columns).1 = .ok rec →
      (scanRow reg true data rows dst columns).2.2.length =
        2 * (columns.filter (fun n => (lookupField d.fields n).isNone)).length) := by
  cases hr : rows.rows with
  | nil =>
    cases he : rows.finalErr with
    | some e =>
      constructor
      · simp [scanRow, Rows.next, hr, Rows.errNow, he]
      constructor
      · simp [scanRow, Rows.next, hr, Rows.errNow, he]
      · intro rec hrec
        simp [scanRow, Rows.next, hr, Rows.errNow, he] at hrec
    | none =>
      constructor
      · simp [scanRow, Rows.next, hr, Rows.errNow, he]
      constructor
      · simp [scanRow, Rows.next, hr, Rows.errNow, he]
      · intro rec hrec
        simp [scanRow, Rows.next, hr, Rows.errNow, he] at hrec
  | cons row rest =>
    have htarg : Targets reg true dst columns =
        targetsLoop reg true d dst.values columns := by simp [Targets, hg]
    have htargf : Targets reg false dst columns =
        targetsLoop reg false d dst.values columns := by simp [Targets, hg]
    cases ht : targetsLoop reg true d dst.values columns with
    | mk rt lgt =>
      cases htf : targetsLoop reg false d dst.values columns with
      | mk rtf lgtf =>
        have hsame : rt = rtf := by
          have := targetsLoop_fst_debug_indep reg d dst.values columns true false
          rw [ht, htf] at this
          exact this
        have hlgtf : lgtf = [] := by
          have := targetsLoop_logs_debug_false reg d dst.values columns
          rw [htf] at this
          exact this
        subst hsame hlgtf
        cases rt with
        | error e =>
          refine ⟨?_, ?_, ?_⟩
          · simp [scanRow, Rows.next, hr, htargf, htf]
          · simp [scanRow, Rows.next, hr, htarg, htargf, ht, htf]
          · intro rec hrec
            simp [scanRow, Rows.next, hr, htarg, ht] at hrec
        | ok ts =>
          by_cases hlen : ts.length = row.length
          · by_cases hclen : columns.length = row.length
            · have hwr : WriteTargets reg true dst columns row =
                  writeTargetsLoop reg true d dst (columns.zip row) := by
                simp [WriteTargets, hclen, hg]
              have hwrf : WriteTargets reg false dst columns row =
                  writeTargetsLoop reg false d dst (columns.zip row) := by
                simp [WriteTargets, hclen, hg]
              cases hw : writeTargetsLoop reg true d dst (columns.zip row) with
              | mk wr wlg =>
                cases hwf : writeTargetsLoop reg false d dst (columns.zip row) with
                | mk wrf wlgf =>
                  have hsamew : wr = wrf := by
                    have := writeTargetsLoop_fst_debug_indep reg d (columns.zip row) dst true false
                    rw [hw, hwf] at this
                    exact this
                  have hwlgf : wlgf = [] := by
                    have := writeTargetsLoop_logs_debug_false reg d (columns.zip row) dst
                    rw [hwf] at this
                    exact this
                  subst hsamew hwlgf
                  cases wr with
                  | error e =>
                    refine ⟨?_, ?_, ?_⟩
                    · simp [scanRow, Rows.next, hr, htargf, htf, hlen, hwrf, hwf]
                    · simp [scanRow, Rows.next, hr, htarg, htargf, ht, htf, hlen, hwr, hwrf,
                        hw, hwf]
                    · intro rec hrec
                      simp [scanRow, Rows.next, hr, htarg, ht, hlen, hwr, hw] at hrec
                  | ok rec0 =>
                    cases he : Rows.errNow { rows with rows := rest } with
                    | some e =>
                      refine ⟨?_, ?_, ?_⟩
                      · simp [scanRow, Rows.next, hr, htargf, htf, hlen, hwrf, hwf, he]
                      · simp [scanRow, Rows.next, hr, htarg, htargf, ht, htf, hlen, hwr, hwrf,
                          hw, hwf, he]
                      · intro rec hrec
                        simp [scanRow, Rows.next, hr, htarg, ht, hlen, hwr, hw, he] at hrec
                    | none =>
                      refine ⟨?_, ?_, ?_⟩
                      · simp [scanRow, Rows.next, hr, htargf, htf, hlen, hwrf, hwf, he]
                      · simp [scanRow, Rows.next, hr, htarg, htargf, ht, htf, hlen, hwr, hwrf,
                          hw, hwf, he]
                      · intro rec hrec
                        have hlg1 := targetsLoop_logs_length_of_ok reg d dst.values columns ts lgt ht
                        have hlg2 := writeTargetsLoop_logs_length_of_ok reg d (columns.zip row)
                          dst rec0 wlg hw
                        have hzip := zip_filter_isNone_length d columns row hclen
                        simp [scanRow, Rows.next, hr, htarg, ht, hlen, hwr, hw, he, hlg1, hlg2,
                          hzip]
                        ring
            · have hwr : WriteTargets reg true dst columns row =
                  (.error (.errStr ("meddler.WriteTargets: mismatch in number of columns (" ++
                    toString columns.length ++ ") and targets (" ++ toString row.length ++ ")")),
                    []) := by
                simp [WriteTargets, hclen]
              have hwrf : WriteTargets reg false dst columns row =
                  (.error (.errStr ("meddler.WriteTargets: mismatch in number of columns (" ++
                    toString columns.length ++ ") and targets (" ++ toString row.length ++ ")")),
                    []) := by
                simp [WriteTargets, hclen]
              refine ⟨?_, ?_, ?_⟩
              · simp [scanRow, Rows.next, hr, htargf, htf, hlen, hwrf]
              · simp [scanRow, Rows.next, hr, htarg, htargf, ht, htf, hlen, hwr, hwrf]
              · intro rec hrec
                simp [scanRow, Rows.next, hr, htarg, ht, hlen, hwr] at hrec
          · refine ⟨?_, ?_, ?_⟩
            · simp [scanRow, Rows.next, hr, htargf, htf, hlen]
            · simp [scanRow, Rows.next, hr, htarg, htargf, ht, htf, hlen]
            · intro rec hrec
              simp [scanRow, Rows.next, hr, htarg, ht, hlen] at hrec

/-! ## C7: SomeValues emits nulls for unknown columns and aborts on
PreWrite failures -/

theorem someValuesLoop_ok_of_preWrite_ok (reg : Registry) (debug : Bool)
    (data : structData) (vals : List GoValue) : ∀ cols,
    (∀ name sf, name ∈ cols → lookupField data.fields name = some sf →
      ∃ v, (medImpl reg sf.meddler).preWrite (vals.getD sf.index GoValue.vnull) = .ok v) →
    ∃ vs, (someValuesLoop reg debug data vals cols).1 = .ok vs ∧
      vs.length = cols.length ∧
      ∀ i : Nat, i < cols.length → (lookupField data.fields (cols.getD i "")).isNone →
        vs.getD i (.vint 0) = .vnull := by
  intro cols
  induction cols with
  | nil => exact fun _ => ⟨[], rfl, rfl, fun i hi _ => absurd hi (by simp)⟩
  | cons name rest ih =>
    intro hok
    obtain ⟨vs, hvs, hlen, hnull⟩ :=
      ih (fun n sf hn hsf => hok n sf (List.mem_cons_of_mem _ hn) hsf)
    simp only [someValuesLoop]
    cases hf : lookupField data.fields name with
    | none =>
      refine ⟨.vnull :: vs, ?_, by simp [hlen], ?_⟩
      · simp [hvs]
      · intro i hi hnone
        cases i with
        | zero => simp
        | succ j =>
          simp only [List.getD_cons_succ] at hnone ⊢
          exact hnull j (by simpa using hi) hnone
    | some field =>
      obtain ⟨v, hv⟩ := hok name field (by simp) hf
      refine ⟨v :: vs, ?_, by simp [hlen], ?_⟩
      · simp only [List.getD_eq_getElem?_getD] at hv
        simp [hv, hvs]
      · intro i hi hnone
        cases i with
        | zero => simp [hf] at hnone
        | succ j =>
          simp only [List.getD_cons_succ] at hnone ⊢
          exact hnull j (by simpa using hi) hnone

theorem someValuesLoop_error_at (reg : Registry) (debug : Bool) (data : structData)
    (vals : List GoValue) : ∀ pre name rest sf e,
    (∀ n2 sf2, n2 ∈ pre → lookupField data.fields n2 = some sf2 →
      ∃ v, (medImpl reg sf2.meddler).preWrite (vals.getD sf2.index GoValue.vnull) = .ok v) →
    lookupField data.fields name = some sf →
    (medImpl reg sf.meddler).preWrite (vals.getD sf.index GoValue.vnull) = .error e →
    (someValuesLoop reg debug data vals (pre ++ name :: rest)).1 = .error (.errStr
      ("meddler.SomeValues: PreWrite error on column [" ++ name ++ "]: " ++ e.message)) := by
  intro pre
  induction pre with
  | nil =>
    intro name rest sf e _ hf he
    simp only [List.nil_append, someValuesLoop, hf]
    rw [he]
  | cons p pre' ih =>
    intro name rest sf e hok hf he
    have hrec := ih name rest sf e
      (fun n2 sf2 hn hsf => hok n2 sf2 (List.mem_cons_of_mem _ hn) hsf) hf he
    simp only [List.cons_append, someValuesLoop]
    cases hp : lookupField data.fields p with
    | none => simp [hrec]
    | some field =>
      obtain ⟨v, hv⟩ := hok p field (by simp) hp
      simp only [List.getD_eq_getElem?_getD] at hv
      simp [hv, hrec]

/-- C7: for a record with a built descriptor, `SomeValues` emits a null
marker at every requested column that has no field descriptor in the shape
and does not fail for that reason, while a transformer pre-write failure on
a column makes the whole call return an error naming that column — no value
list at all is produced. -/
theorem SomeValues_null_markers_and_prewrite_abort (reg : Registry) (debug : Bool)
    (src : Record) (columns : List String) (d : structData)
    (hg : getFields reg src.rtype = .ok d) :
    ((∀ name sf, name ∈ columns → lookupField d.fields name = some sf →
        ∃ v, (medImpl reg sf.meddler).preWrite (src.values.getD sf.index GoValue.vnull) = .ok v) →
      ∃ vs, (SomeValues reg debug src columns).1 = .ok vs ∧
        vs.length = columns.length ∧
        ∀ i : Nat, i < columns.length → (lookupField d.fields (columns.getD i "")).isNone →
          vs.getD i (.vint 0) = .vnull) ∧
    (∀ pre name rest sf e, columns = pre ++ name :: rest →
      (∀ n2 sf2, n2 ∈ pre → lookupField d.fields n2 = some sf2 →
        ∃ v, (medImpl reg sf2.meddler).preWrite (src.values.getD sf2.index GoValue.vnull) = .ok v) →
      lookupField d.fields name = some sf →
      (medImpl reg sf.meddler).preWrite (src.values.getD sf.index GoValue.vnull) = .error e →
      (SomeValues reg debug src columns).1 = .error (.errStr
        ("meddler.SomeValues: PreWrite error on column [" ++ name ++ "]: " ++ e.message))) := by
  constructor
  · intro hok
    have := someValuesLoop_ok_of_preWrite_ok reg debug d src.values columns hok
    simpa [SomeValues, hg] using this
  · intro pre name rest sf e hcols hok hf he
    have := someValuesLoop_error_at reg debug d src.values pre name rest sf e hok hf he
    rw [hcols]
    simpa [SomeValues, hg] using this

/-- Witness for C7 on a concrete record: a column list with an unknown
column gets a null marker there; a registry whose transformer fails makes
the call error naming the column. -/
theorem SomeValues_null_markers_and_prewrite_abort_witness :
    getFields defaultRegistry noPkType =
      .ok ⟨["name"], [⟨"name", 0, false, "identity"⟩], ""⟩ ∧
    (∃ vs, (SomeValues defaultRegistry true ⟨noPkType, [.vstr "a"]⟩ ["name", "ghost"]).1 =
        .ok vs ∧ vs.length = 2 ∧
        ∀ i : Nat, i < 2 →
          (lookupField [⟨"name", 0, false, "identity"⟩] ((["name", "ghost"] : List String).getD i "")).isNone →
          vs.getD i (.vint 0) = .vnull) :=
  ⟨rfl,
    (SomeValues_null_markers_and_prewrite_abort defaultRegistry true
      ⟨noPkType, [.vstr "a"]⟩ ["name", "ghost"]
      ⟨["name"], [⟨"name", 0, false, "identity"⟩], ""⟩ rfl).1
      (fun name sf hn hsf => by
        simp only [List.mem_cons, List.not_mem_nil, or_false] at hn
        rcases hn with rfl | rfl
        · have hsf' : (⟨"name", 0, false, "identity"⟩ : structField) = sf := by
            simpa [lookupField, List.find?] using hsf
          cases hsf'
          exact ⟨.vstr "a", rfl⟩
        · simp [lookupField, List.find?] at hsf)⟩

/-! ## C8: ScanAll preserves pre-existing elements and appends -/

theorem scanAllLoop_frame (reg : Registry) (debug : Bool) (data : structData)
    (cols : List String) (finalErr : Option GoErr) (eltFields : List GoField)
    (eltType : GoType) : ∀ rs acc,
    scanAllLoop reg debug data cols finalErr eltFields eltType rs acc =
      ((scanAllLoop reg debug data cols finalErr eltFields eltType rs []).1,
       acc ++ (scanAllLoop reg debug data cols finalErr eltFields eltType rs []).2.1,
       (scanAllLoop reg debug data cols finalErr eltFields eltType rs []).2.2) := by
  intro rs
  induction rs with
  | nil =>
    intro acc
    cases finalErr with
    | none => simp [scanAllLoop]
    | some e => by_cases he : e = .errNoRows <;> simp [scanAllLoop, he]
  | cons row rest ih =>
    intro acc
    simp only [scanAllLoop]
    cases hs : scanRow reg debug data ⟨cols, row :: rest, finalErr, false⟩
        ⟨GoType.ptr eltType, eltFields.map (fun f => f.ftype.zeroValue)⟩ cols with
    | mk r p =>
      cases p with
      | mk rows' lg =>
        cases r with
        | error e => simp
        | ok rec => simp [ih (acc ++ [rec]), ih [rec]]

/-- C8: for a pointer-to-slice-of-struct-pointers destination with a built
descriptor, holding arbitrary pre-existing elements: a scan over a cursor
yielding zero rows (and reporting no iteration error) returns no error and
leaves the contents exactly unchanged; and over any cursor, the outcome is
that of the same scan into an empty destination with its scanned records
appended after the preserved pre-existing elements. -/
theorem ScanAll_preserves_and_appends (reg : Registry) (debug : Bool) (rows : Rows)
    (fl : FieldList) (elems : List Record) (d : structData)
    (hg : getFields reg (.ptr (.strct fl)) = .ok d) :
    (rows.rows = [] → rows.finalErr = none →
      ScanAll reg debug rows (.ptr (.slice (.ptr (.strct fl)))) elems = (none, elems, [])) ∧
    (ScanAll reg debug rows (.ptr (.slice (.ptr (.strct fl)))) elems =
      ((ScanAll reg debug rows (.ptr (.slice (.ptr (.strct fl)))) []).1,
       elems ++ (ScanAll reg debug rows (.ptr (.slice (.ptr (.strct fl)))) []).2.1,
       (ScanAll reg debug rows (.ptr (.slice (.ptr (.strct fl)))) []).2.2)) := by
  constructor
  · intro hr he
    simp [ScanAll, hg, hr, he, scanAllLoop]
  · simp only [ScanAll, hg]
    exact scanAllLoop_frame reg debug d rows.cols rows.finalErr fl.toList (.strct fl)
      rows.rows elems

/-- Witness for C8: an empty clean cursor leaves a one-element destination
unchanged. -/
theorem ScanAll_preserves_and_appends_witness :
    getFields defaultRegistry noPkType =
      .ok ⟨["name"], [⟨"name", 0, false, "identity"⟩], ""⟩ ∧
    ScanAll defaultRegistry true ⟨["name"], [], none, false⟩
      (.ptr (.slice noPkType)) [⟨noPkType, [.vstr "keep"]⟩] =
      (none, [⟨noPkType, [.vstr "keep"]⟩], []) :=
  ⟨rfl,
    (ScanAll_preserves_and_appends defaultRegistry true ⟨["name"], [], none, false⟩
      (.cons "Name" "" "name" false (.prim .stringK) .nil) [⟨noPkType, [.vstr "keep"]⟩]
      ⟨["name"], [⟨"name", 0, false, "identity"⟩], ""⟩ rfl).1 rfl rfl⟩

/-! ## C2: descriptor invariants (unique columns, single integer, non-pointer
primary key) -/

theorem lookupField_isSome_iff (l : List structField) (name : String) :
    (lookupField l name).isSome = true ↔ name ∈ l.map structField.column := by
  constructor
  · intro h
    obtain ⟨sf, hmem, hcol⟩ := List.find?_isSome.1 h
    exact List.mem_map.2 ⟨sf, hmem, by simpa using hcol⟩
  · intro h
    obtain ⟨sf, hmem, hcol⟩ := List.mem_map.1 h
    exact List.find?_isSome.2 ⟨sf, hmem, by simpa using hcol⟩

theorem parseTags_ok_facts (reg : Registry) (fname : String) (fkind : Kind) (name : String) :
    ∀ (toks : List String) (med pk med' pk' : String),
    parseTags reg fname fkind name toks med pk = .ok (med', pk') →
    (("pk" ∈ toks) →
      isIntKind fkind = true ∧ fkind ≠ .ptrK ∧ pk = "" ∧ pk' = name) ∧
    ("pk" ∉ toks → pk' = pk) := by
  intro toks
  induction toks with
  | nil =>
    intro med pk med' pk' h
    simp only [parseTags] at h
    refine ⟨fun hmem => absurd hmem (List.not_mem_nil _), fun _ => ?_⟩
    cases h
    rfl
  | cons tok rest ih =>
    intro med pk med' pk' h
    simp only [parseTags] at h
    by_cases htok : tok = "pk"
    · rw [if_pos htok] at h
      by_cases hptr : fkind = .ptrK
      · rw [if_pos hptr] at h
        exact absurd h (by simp)
      · rw [if_neg hptr] at h
        cases hint : isIntKind fkind with
        | false =>
          rw [if_pos (by simp [hint])] at h
          exact absurd h (by simp)
        | true =>
          rw [if_neg (by simp [hint])] at h
          by_cases hpk : pk ≠ ""
          · rw [if_pos hpk] at h
            exact absurd h (by simp)
          · rw [if_neg hpk] at h
            push_neg at hpk
            have hrest := ih med name med' pk' h
            have hpk' : pk' = name := by
              by_cases hmem : "pk" ∈ rest
              · exact (hrest.1 hmem).2.2.2
              · exact hrest.2 hmem
            exact ⟨fun _ => ⟨rfl, hptr, hpk, hpk'⟩,
              fun hmem => absurd (htok ▸ List.mem_cons_self tok rest) hmem⟩
    · rw [if_neg htok] at h
      cases hreg : regHas reg tok with
      | false =>
        rw [if_neg (by simp [hreg])] at h
        exact absurd h (by simp)
      | true =>
        rw [if_pos hreg] at h
        have hrest := ih tok pk med' pk' h
        constructor
        · intro hmem
          rcases List.mem_cons.1 hmem with heq | hmem'
          · exact absurd heq.symm htok
          · exact hrest.1 hmem'
        · intro hmem
          exact hrest.2 (fun hr => hmem (List.mem_cons_of_mem _ hr))

theorem flagged_count_le_one (p : String) :
    ∀ l : List structField, (l.map structField.column).Nodup →
    (∀ sf ∈ l, sf.primaryKey = (sf.column == p)) →
    (l.filter (fun sf => sf.primaryKey)).length ≤ 1 := by
  intro l
  induction l with
  | nil => intro _ _; simp
  | cons sf rest ih =>
    intro hnd hflag
    simp only [List.map_cons, List.nodup_cons] at hnd
    cases hp : sf.primaryKey with
    | false =>
      simp only [List.filter_cons, hp]
      exact ih hnd.2 (fun sf' h' => hflag sf' (List.mem_cons_of_mem _ h'))
    | true =>
      have hcol : sf.column = p := by
        have := hflag sf (List.mem_cons_self _ _)
        rw [hp] at this
        exact beq_iff_eq.1 this.symm
      have hrest : rest.filter (fun sf => sf.primaryKey) = [] := by
        rw [List.filter_eq_nil_iff]
        intro sf' hsf'
        have hflag' := hflag sf' (List.mem_cons_of_mem _ hsf')
        intro hp'
        rw [hp'] at hflag'
        have hcol' : sf'.column = p := beq_iff_eq.1 hflag'.symm
        exact hnd.1 (hcol ▸ hcol' ▸ List.mem_map.2 ⟨sf', hsf', rfl⟩)
      simp [List.filter_cons, hp, hrest]

theorem getFieldsLoop_ok_facts (reg : Registry) :
    ∀ (fs : List GoField) (i : Nat) (st d : structData),
    getFieldsLoop reg fs i st = .ok d →
    (∀ f ∈ fs, f.fname ≠ "") →
    st.fields.map structField.column = st.columns →
    (∀ sf ∈ st.fields, sf.primaryKey = (sf.column == st.pk)) →
    "" ∉ st.columns →
    (d.columns = st.columns ++ visibleCols fs ∧
     (∀ c ∈ visibleCols fs, c ∉ st.columns) ∧
     (visibleCols fs).Nodup) ∧
    (d.fields.map structField.column = d.columns ∧
     (∀ sf ∈ d.fields, sf.primaryKey = (sf.column == d.pk)) ∧
     "" ∉ d.columns) ∧
    ((∀ f ∈ fs, fieldVisible f = true → pkTagged f = true →
       isIntKind f.ftype.kindOf = true ∧ f.ftype.kindOf ≠ .ptrK) ∧
     (st.pk ≠ "" → (fs.filter (fun f => fieldVisible f && pkTagged f)).length = 0) ∧
     (fs.filter (fun f => fieldVisible f && pkTagged f)).length ≤ 1) := by
  intro fs
  induction fs with
  | nil =>
    intro i st d h hnn hkeys hflag hemp
    simp only [getFieldsLoop] at h
    cases h
    exact ⟨⟨by simp [visibleCols], by simp [visibleCols], by simp [visibleCols]⟩,
      ⟨hkeys, hflag, hemp⟩, ⟨by simp, fun _ => by simp, by simp⟩⟩
  | cons f fs ih =>
    intro i st d h hnn hkeys hflag hemp
    simp only [getFieldsLoop] at h
    by_cases hpp : f.pkgPath = ""
    · rw [if_neg (by simp [hpp])] at h
      by_cases hskip : tagHead f = "-"
      · rw [if_pos hskip] at h
        have hvis : fieldVisible f = false := by simp [fieldVisible, hpp, hskip]
        have hres := ih (i + 1) st d h (fun g hg => hnn g (List.mem_cons_of_mem _ hg))
          hkeys hflag hemp
        obtain ⟨⟨hc1, hc2, hc3⟩, hk, ⟨hp1, hp2, hp3⟩⟩ := hres
        refine ⟨⟨?_, ?_, ?_⟩, hk, ⟨?_, ?_, ?_⟩⟩
        · simpa [visibleCols, List.filter_cons, hvis] using hc1
        · intro c hc
          exact hc2 c (by simpa [visibleCols, List.filter_cons, hvis] using hc)
        · simpa [visibleCols, List.filter_cons, hvis] using hc3
        · intro g hg
          rcases List.mem_cons.1 hg with rfl | hg'
          · intro hv; rw [hvis] at hv; cases hv
          · exact hp1 g hg'
        · intro hpk
          simpa [List.filter_cons, hvis] using hp2 hpk
        · simpa [List.filter_cons, hvis] using hp3
      · rw [if_neg hskip] at h
        have hvis : fieldVisible f = true := by simp [fieldVisible, hpp, hskip]
        cases hpt : parseTags reg f.fname f.ftype.kindOf (colName f) (tagMods f)
            "identity" st.pk with
        | error e => rw [hpt] at h; exact absurd h (by simp)
        | ok pr =>
          cases pr with
          | mk med pk' =>
            rw [hpt] at h
            cases hdup : (lookupField st.fields (colName f)).isSome with
            | true => simp [hdup] at h
            | false =>
              simp only [hdup, Bool.false_eq_true, if_false] at h
              have hname : colName f ≠ "" := by
                have hf := hnn f (List.mem_cons_self _ _)
                by_cases htg : tagHead f = "" <;> simp [colName, htg, hf]
              have hnotin : colName f ∉ st.columns := by
                rw [← hkeys]
                intro hmem
                have := (lookupField_isSome_iff _ _).2 hmem
                rw [hdup] at this
                cases this
              have pf := parseTags_ok_facts reg f.fname f.ftype.kindOf (colName f)
                (tagMods f) "identity" st.pk med pk' hpt
              have hpk'cases : pk' = st.pk ∨
                  (st.pk = "" ∧ pk' = colName f ∧ pkTagged f = true ∧
                    isIntKind f.ftype.kindOf = true ∧ f.ftype.kindOf ≠ .ptrK) := by
                by_cases hmem : "pk" ∈ tagMods f
                · obtain ⟨hint, hptr, hpk0, hpk'⟩ := pf.1 hmem
                  exact Or.inr ⟨hpk0, hpk', by simp [pkTagged, hmem], hint, hptr⟩
                · exact Or.inl (pf.2 hmem)
              have hpktag : pkTagged f = true ↔ "pk" ∈ tagMods f := by simp [pkTagged]
              have hkeys' :
                  (st.fields ++ [(⟨colName f, i, colName f == pk', med⟩ : structField)]).map
                    structField.column = st.columns ++ [colName f] := by
                simp [hkeys]
              have hflag' : ∀ sf ∈ st.fields ++
                  [(⟨colName f, i, colName f == pk', med⟩ : structField)],
                  sf.primaryKey = (sf.column == pk') := by
                intro sf hsf
                rcases List.mem_append.1 hsf with hold | hnew
                · have hofl := hflag sf hold
                  have hcolin : sf.column ∈ st.columns := by
                    rw [← hkeys]
                    exact List.mem_map.2 ⟨sf, hold, rfl⟩
                  rcases hpk'cases with heq | ⟨hpk0, hpk'', _, _, _⟩
                  · rw [heq]; exact hofl
                  · rw [hpk0] at hofl
                    have hne1 : (sf.column == "") = false := by
                      simp only [beq_eq_false_iff_ne, ne_eq]
                      intro hc; rw [hc] at hcolin; exact hemp hcolin
                    have hne2 : (sf.column == pk') = false := by
                      rw [hpk'']
                      simp only [beq_eq_false_iff_ne, ne_eq]
                      intro hc; rw [hc] at hcolin; exact hnotin hcolin
                    rw [hofl, hne1, hne2]
                · have hsfeq := List.mem_singleton.1 hnew
                  rw [hsfeq]
              have hemp' : "" ∉ st.columns ++ [colName f] := by
                intro hmem
                rcases List.mem_append.1 hmem with h1 | h2
                · exact hemp h1
                · exact hname (List.mem_singleton.1 h2).symm
              have hres := ih (i + 1)
                ⟨st.columns ++ [colName f],
                 st.fields ++ [⟨colName f, i, colName f == pk', med⟩], pk'⟩ d h
                (fun g hg => hnn g (List.mem_cons_of_mem _ hg)) hkeys' hflag' hemp'
              obtain ⟨⟨hc1, hc2, hc3⟩, hk, ⟨hp1, hp2, hp3⟩⟩ := hres
              have hvisCols : visibleCols (f :: fs) = colName f :: visibleCols fs := by
                simp [visibleCols, List.filter_cons, hvis]
              refine ⟨⟨?_, ?_, ?_⟩, hk, ⟨?_, ?_, ?_⟩⟩
              · rw [hvisCols, hc1]
                simp
              · intro c hc
                rw [hvisCols] at hc
                rcases List.mem_cons.1 hc with rfl | hc'
                · exact hnotin
                · intro hcin
                  exact hc2 c hc' (by simp [hcin])
              · rw [hvisCols]
                refine List.Nodup.cons ?_ hc3
                intro hmem
                exact hc2 (colName f) hmem (by simp)
              · intro g hg hgv hgp
                rcases List.mem_cons.1 hg with rfl | hg'
                · obtain ⟨hint, hptr, _, _⟩ := pf.1 (hpktag.1 hgp)
                  exact ⟨hint, hptr⟩
                · exact hp1 g hg' hgv hgp
              · intro hpk
                have hpknot : pkTagged f = false := by
                  cases hpt2 : pkTagged f with
                  | false => rfl
                  | true => exact absurd (pf.1 (hpktag.1 hpt2)).2.2.1 hpk
                have hpkeq : pk' = st.pk :=
                  pf.2 (fun hm => by rw [hpktag.2 hm] at hpknot; cases hpknot)
                have h0 := hp2 (show pk' ≠ "" by rw [hpkeq]; exact hpk)
                simpa [List.filter_cons, hvis, hpknot] using h0
              · cases hpt2 : pkTagged f with
                | false =>
                  simpa [List.filter_cons, hvis, hpt2] using hp3
                | true =>
                  obtain ⟨_, _, _, hpk''⟩ := pf.1 (hpktag.1 hpt2)
                  have hcount0 := hp2 (show pk' ≠ "" by rw [hpk'']; exact hname)
                  simp [List.filter_cons, hvis, hpt2, hcount0]
    · rw [if_pos hpp] at h
      have hvis : fieldVisible f = false := by simp [fieldVisible, hpp]
      have hres := ih (i + 1) st d h (fun g hg => hnn g (List.mem_cons_of_mem _ hg))
        hkeys hflag hemp
      obtain ⟨⟨hc1, hc2, hc3⟩, hk, ⟨hp1, hp2, hp3⟩⟩ := hres
      refine ⟨⟨?_, ?_, ?_⟩, hk, ⟨?_, ?_, ?_⟩⟩
      · simpa [visibleCols, List.filter_cons, hvis] using hc1
      · intro c hc
        exact hc2 c (by simpa [visibleCols, List.filter_cons, hvis] using hc)
      · simpa [visibleCols, List.filter_cons, hvis] using hc3
      · intro g hg
        rcases List.mem_cons.1 hg with rfl | hg'
        · intro hv; rw [hvis] at hv; cases hv
        · exact hp1 g hg'
      · intro hpk
        simpa [List.filter_cons, hvis] using hp2 hpk
      · simpa [List.filter_cons, hvis] using hp3

/-- C2: every descriptor `getFields` builds has pairwise-distinct column
names, at most one field designated primary key, and only integer-kinded,
non-pointer fields marked as primary key; shapes with duplicate columns, two
primary-key fields, or a pointer/non-integer primary key make `getFields`
return an error instead. -/
theorem getFields_descriptor_invariants (reg : Registry) (fl : FieldList)
    (hnn : ∀ f ∈ fl.toList, f.fname ≠ "") :
    (∀ d, getFields reg (.ptr (.strct fl)) = .ok d →
      d.columns.Nodup ∧
      (d.fields.filter (fun sf => sf.primaryKey)).length ≤ 1 ∧
      (∀ f ∈ fl.toList, fieldVisible f = true → pkTagged f = true →
        isIntKind f.ftype.kindOf = true ∧ f.ftype.kindOf ≠ .ptrK)) ∧
    ((¬ (visibleCols fl.toList).Nodup ∨
      2 ≤ (fl.toList.filter (fun f => fieldVisible f && pkTagged f)).length ∨
      (∃ f ∈ fl.toList, fieldVisible f = true ∧ pkTagged f = true ∧
        (f.ftype.kindOf = .ptrK ∨ isIntKind f.ftype.kindOf = false))) →
      ∃ e, getFields reg (.ptr (.strct fl)) = .error e) := by
  constructor
  · intro d h
    have hfacts := getFieldsLoop_ok_facts reg fl.toList 0 ⟨[], [], ""⟩ d h hnn rfl
      (by intro sf hsf; cases hsf) (by simp)
    obtain ⟨⟨hc1, _, hc3⟩, ⟨hk1, hk2, _⟩, ⟨hp1, _, _⟩⟩ := hfacts
    have hcolsnd : d.columns.Nodup := by
      rw [hc1]
      simpa using hc3
    exact ⟨hcolsnd,
      flagged_count_le_one d.pk d.fields (by rw [hk1]; exact hcolsnd) hk2, hp1⟩
  · intro hbad
    cases hres : getFields reg (.ptr (.strct fl)) with
    | error e => exact ⟨e, rfl⟩
    | ok d =>
      have hfacts := getFieldsLoop_ok_facts reg fl.toList 0 ⟨[], [], ""⟩ d hres hnn rfl
        (by intro sf hsf; cases hsf) (by simp)
      obtain ⟨⟨_, _, hc3⟩, _, ⟨hp1, _, hp3⟩⟩ := hfacts
      rcases hbad with hb | hb | ⟨f, hf, hfv, hfp, hbadkind⟩
      · exact absurd hc3 hb
      · omega
      · rcases hbadkind with hk | hk
        · exact absurd hk (hp1 f hf hfv hfp).2
        · rw [(hp1 f hf hfv hfp).1] at hk
          cases hk

/-- Witness for C2's invariants on the concrete pk-carrying shape. -/
theorem getFields_descriptor_invariants_witness :
    (⟨["id", "name"], [⟨"id", 0, true, "identity"⟩, ⟨"name", 1, false, "identity"⟩], "id"⟩ :
      structData).columns.Nodup ∧
    ((⟨["id", "name"], [⟨"id", 0, true, "identity"⟩, ⟨"name", 1, false, "identity"⟩], "id"⟩ :
      structData).fields.filter (fun sf => sf.primaryKey)).length ≤ 1 :=
  let h := (getFields_descriptor_invariants defaultRegistry
    (.cons "ID" "" "id,pk" false (.prim .int64K)
      (.cons "Name" "" "name" false (.prim .stringK) .nil)) (by decide)).1
    ⟨["id", "name"], [⟨"id", 0, true, "identity"⟩, ⟨"name", 1, false, "identity"⟩], "id"⟩ rfl
  ⟨h.1, h.2.1⟩

/-! ## C1: the embedding-capable builder flattens composed shapes -/

theorem lookupFieldE_eq_none (l : List structFieldE) (name : String) :
    lookupFieldE l name = none ↔ name ∉ l.map structFieldE.column := by
  constructor
  · intro h hmem
    obtain ⟨sf, hsf, hcol⟩ := List.mem_map.1 hmem
    have := List.find?_eq_none.1 h sf hsf
    simp [hcol] at this
  · intro h
    apply List.find?_eq_none.2
    intro sf hsf
    simp only [beq_eq_false_iff_ne, ne_eq, Bool.not_eq_true]
    intro hcol
    exact h (List.mem_map.2 ⟨sf, hsf, hcol⟩)

theorem plainEntries_columns (pfx : List Nat) :
    ∀ (fs : List GoField) (i : Nat),
    (plainEntries pfx fs i).map structFieldE.column = visibleCols fs := by
  intro fs
  induction fs with
  | nil => intro i; rfl
  | cons f rest ih =>
    intro i
    cases hv : fieldVisible f with
    | true => simp [plainEntries, hv, visibleCols, List.filter_cons, ih (i + 1)]
    | false => simp [plainEntries, hv, visibleCols, List.filter_cons, ih (i + 1)]

theorem embedField_plain_eq (reg : Registry) (n pp tg : String) (anon : Bool) (ty : GoType)
    (path : List Nat) (st : structDataE) (hanon : (anon && isEmbeddable ty) = false) :
    embedField reg n pp tg anon ty path st =
      if pp ≠ "" then .ok st else embedPlain reg ⟨n, pp, tg, anon, ty⟩ path st := by
  unfold embedField
  by_cases hpp : pp = ""
  · subst hpp
    rw [if_neg (fun hc : ("" : String) ≠ "" => hc rfl)]
    cases anon with
    | false => rfl
    | true =>
      simp only [Bool.true_and] at hanon
      cases ty with
      | prim k => rfl
      | strct fl => simp [isEmbeddable] at hanon
      | slice t => rfl
      | ptr t =>
        cases t with
        | prim k => rfl
        | ptr t2 => rfl
        | slice t2 => rfl
        | strct fl => simp [isEmbeddable] at hanon
  · rw [if_pos hpp]
    rw [if_pos hpp]

theorem embedPlain_simple (reg : Registry) (f : GoField) (path : List Nat)
    (sc : List String) (sfl : List structFieldE)
    (hmods : tagMods f = []) (hname : colName f ≠ "")
    (hfresh : colName f ∉ sfl.map structFieldE.column) (hskip : tagHead f ≠ "-") :
    embedPlain reg f path ⟨sc, sfl, ""⟩ =
      .ok ⟨sc ++ [colName f], sfl ++ [⟨colName f, path, false, "identity"⟩], ""⟩ := by
  have hdup : lookupFieldE sfl (colName f) = none := (lookupFieldE_eq_none _ _).2 hfresh
  have hflag : (colName f == "") = false := by
    simp only [beq_eq_false_iff_ne, ne_eq]
    exact hname
  simp only [embedPlain, hmods, parseTags]
  rw [if_neg hskip]
  simp [hdup, hflag]

theorem embedWalk_plain (reg : Registry) :
    ∀ (fs : List GoField) (pfx : List Nat) (i : Nat) (sc : List String)
      (sfl : List structFieldE),
    (∀ f ∈ fs, simplePlain f = true) →
    (∀ c ∈ visibleCols fs, c ∉ sfl.map structFieldE.column) →
    (visibleCols fs).Nodup →
    embedWalk reg (FieldList.ofList fs) pfx i ⟨sc, sfl, ""⟩ =
      .ok ⟨sc ++ visibleCols fs, sfl ++ plainEntries pfx fs i, ""⟩ := by
  intro fs
  induction fs with
  | nil =>
    intro pfx i sc sfl _ _ _
    simp [FieldList.ofList, embedWalk, visibleCols, plainEntries]
  | cons f rest ih =>
    intro pfx i sc sfl hplain hfresh hnd
    have hsimple := hplain f (List.mem_cons_self _ _)
    simp only [simplePlain, Bool.and_eq_true, bne_iff_ne, ne_eq] at hsimple
    obtain ⟨⟨hfname, hmods'⟩, hnoembed⟩ := hsimple
    have hmods : tagMods f = [] := by
      cases hmt : tagMods f with
      | nil => rfl
      | cons a l => rw [hmt] at hmods'; simp [List.isEmpty] at hmods'
    have hnoembed' : (f.anon && isEmbeddable f.ftype) = false := by
      cases hae : f.anon && isEmbeddable f.ftype with
      | false => rfl
      | true => rw [hae] at hnoembed; simp at hnoembed
    have hfeta : (⟨f.fname, f.pkgPath, f.tag, f.anon, f.ftype⟩ : GoField) = f := rfl
    have hunfold : embedWalk reg (FieldList.ofList (f :: rest)) pfx i ⟨sc, sfl, ""⟩ =
        (match embedField reg f.fname f.pkgPath f.tag f.anon f.ftype (pfx ++ [i])
            ⟨sc, sfl, ""⟩ with
        | .error e => .error e
        | .ok st' => embedWalk reg (FieldList.ofList rest) pfx (i + 1) st') := rfl
    rw [hunfold, embedField_plain_eq reg f.fname f.pkgPath f.tag f.anon f.ftype
      (pfx ++ [i]) ⟨sc, sfl, ""⟩ hnoembed', hfeta]
    by_cases hpp : f.pkgPath = ""
    · rw [if_neg (by simp [hpp])]
      by_cases hskip : tagHead f = "-"
      · have hvis : fieldVisible f = false := by simp [fieldVisible, hpp, hskip]
        have hplain' : embedPlain reg f (pfx ++ [i]) ⟨sc, sfl, ""⟩ = .ok ⟨sc, sfl, ""⟩ := by
          simp only [embedPlain]
          rw [if_pos hskip]
        rw [hplain']
        have hres := ih pfx (i + 1) sc sfl
          (fun g hg => hplain g (List.mem_cons_of_mem _ hg))
          (fun c hc => hfresh c (by simpa [visibleCols, List.filter_cons, hvis] using hc))
          (by simpa [visibleCols, List.filter_cons, hvis] using hnd)
        show embedWalk reg (FieldList.ofList rest) pfx (i + 1) ⟨sc, sfl, ""⟩ =
          .ok ⟨sc ++ visibleCols (f :: rest), sfl ++ plainEntries pfx (f :: rest) i, ""⟩
        rw [hres]
        simp [visibleCols, List.filter_cons, hvis, plainEntries]
      · have hvis : fieldVisible f = true := by simp [fieldVisible, hpp, hskip]
        have hname : colName f ≠ "" := by
          by_cases htg : tagHead f = "" <;> simp [colName, htg, hfname]
        have hvcons : visibleCols (f :: rest) = colName f :: visibleCols rest := by
          simp [visibleCols, List.filter_cons, hvis]
        have hfreshf : colName f ∉ sfl.map structFieldE.column :=
          hfresh (colName f) (by rw [hvcons]; exact List.mem_cons_self _ _)
        have hplain' := embedPlain_simple reg f (pfx ++ [i]) sc sfl hmods hname hfreshf hskip
        rw [hplain']
        rw [hvcons] at hnd hfresh
        have hndrest := (List.nodup_cons.1 hnd).2
        have hnotin := (List.nodup_cons.1 hnd).1
        have hres := ih pfx (i + 1) (sc ++ [colName f])
          (sfl ++ [⟨colName f, pfx ++ [i], false, "identity"⟩])
          (fun g hg => hplain g (List.mem_cons_of_mem _ hg))
          (fun c hc => by
            simp only [List.map_append, List.map_cons, List.map_nil]
            intro hmem
            rcases List.mem_append.1 hmem with h1 | h2
            · exact hfresh c (List.mem_cons_of_mem _ hc) h1
            · have hcn : c = colName f := by simpa using h2
              rw [hcn] at hc
              exact hnotin hc)
          hndrest
        show embedWalk reg (FieldList.ofList rest) pfx (i + 1)
            ⟨sc ++ [colName f], sfl ++ [⟨colName f, pfx ++ [i], false, "identity"⟩], ""⟩ =
          .ok ⟨sc ++ visibleCols (f :: rest), sfl ++ plainEntries pfx (f :: rest) i, ""⟩
        rw [hres, hvcons]
        simp [plainEntries, hvis]
    · rw [if_pos hpp]
      have hvis : fieldVisible f = false := by simp [fieldVisible, hpp]
      have hres := ih pfx (i + 1) sc sfl
        (fun g hg => hplain g (List.mem_cons_of_mem _ hg))
        (fun c hc => hfresh c (by simpa [visibleCols, List.filter_cons, hvis] using hc))
        (by simpa [visibleCols, List.filter_cons, hvis] using hnd)
      show embedWalk reg (FieldList.ofList rest) pfx (i + 1) ⟨sc, sfl, ""⟩ =
        .ok ⟨sc ++ visibleCols (f :: rest), sfl ++ plainEntries pfx (f :: rest) i, ""⟩
      rw [hres]
      simp [visibleCols, List.filter_cons, hvis, plainEntries]

theorem embedWalk_ofList_append (reg : Registry) :
    ∀ (xs ys : List GoField) (pfx : List Nat) (i : Nat) (st : structDataE),
    embedWalk reg (FieldList.ofList (xs ++ ys)) pfx i st =
      (match embedWalk reg (FieldList.ofList xs) pfx i st with
      | .error e => .error e
      | .ok st' => embedWalk reg (FieldList.ofList ys) pfx (i + xs.length) st') := by
  intro xs
  induction xs with
  | nil =>
    intro ys pfx i st
    simp [FieldList.ofList, embedWalk]
  | cons x xs ih =>
    intro ys pfx i st
    simp only [List.cons_append, FieldList.ofList, embedWalk]
    cases embedField reg x.fname x.pkgPath x.tag x.anon x.ftype (pfx ++ [i]) st with
    | error e => simp
    | ok st' =>
      show embedWalk reg (FieldList.ofList (xs ++ ys)) pfx (i + 1) st' =
        (match embedWalk reg (FieldList.ofList xs) pfx (i + 1) st' with
        | .error e => .error e
        | .ok st'' => embedWalk reg (FieldList.ofList ys) pfx (i + (xs.length + 1)) st'')
      rw [ih ys pfx (i + 1) st',
        show i + 1 + xs.length = i + (xs.length + 1) from by omega]

/-- C1 (modelled from the spec; the embedding-capable builder is
`getFieldsEmbed`): for every record shape made of an outer struct, one
directly-embedded struct and one pointer-embedded struct — all other fields
plain and simple, and all visible column names distinct — the builder
recurses into both embedded sub-shapes and produces a column list containing
exactly the union of the exported, non-excluded fields of the three structs,
in outer-then-inner declaration order, each field descriptor carrying a path
prefixed with the embedding field's position. -/
theorem getFieldsEmbed_flattens (reg : Registry) (os0 os1 os2 bfs cfs : List GoField)
    (bname cname btag ctag : String)
    (hplain : ∀ f ∈ os0 ++ os1 ++ os2 ++ bfs ++ cfs, simplePlain f = true)
    (hnodup : (visibleCols os0 ++ visibleCols bfs ++ visibleCols os1 ++ visibleCols cfs ++
      visibleCols os2).Nodup) :
    getFieldsEmbed reg (.ptr (.strct (FieldList.ofList (os0 ++
        (⟨bname, "", btag, true, .strct (FieldList.ofList bfs)⟩ : GoField) ::
        (os1 ++ (⟨cname, "", ctag, true, .ptr (.strct (FieldList.ofList cfs))⟩ : GoField) ::
          os2))))) =
      .ok ⟨visibleCols os0 ++ visibleCols bfs ++ visibleCols os1 ++ visibleCols cfs ++
          visibleCols os2,
        plainEntries [] os0 0 ++ plainEntries [os0.length] bfs 0 ++
          plainEntries [] os1 (os0.length + 1) ++
          plainEntries [os0.length + 1 + os1.length] cfs 0 ++
          plainEntries [] os2 (os0.length + 1 + os1.length + 1), ""⟩ := by
  -- nodup and disjointness facts for the five visible-column segments
  have hndABCD := hnodup.of_append_left
  have hndABC := hndABCD.of_append_left
  have hndAB := hndABC.of_append_left
  have hndA := hndAB.of_append_left
  have hndB := hndAB.of_append_right
  have hndC := hndABC.of_append_right
  have hndD := hndABCD.of_append_right
  have hndE := hnodup.of_append_right
  have hdAB := List.disjoint_of_nodup_append hndAB
  have hdABC := List.disjoint_of_nodup_append hndABC
  have hdABCD := List.disjoint_of_nodup_append hndABCD
  have hdABCDE := List.disjoint_of_nodup_append hnodup
  -- simplicity of each segment
  have hpl0 : ∀ f ∈ os0, simplePlain f = true := fun f hf => hplain f (by simp [hf])
  have hpl1 : ∀ f ∈ os1, simplePlain f = true := fun f hf => hplain f (by simp [hf])
  have hpl2 : ∀ f ∈ os2, simplePlain f = true := fun f hf => hplain f (by simp [hf])
  have hplB : ∀ f ∈ bfs, simplePlain f = true := fun f hf => hplain f (by simp [hf])
  have hplC : ∀ f ∈ cfs, simplePlain f = true := fun f hf => hplain f (by simp [hf])
  -- walk the outer prefix
  rw [show getFieldsEmbed reg (.ptr (.strct (FieldList.ofList (os0 ++
      (⟨bname, "", btag, true, .strct (FieldList.ofList bfs)⟩ : GoField) ::
      (os1 ++ (⟨cname, "", ctag, true, .ptr (.strct (FieldList.ofList cfs))⟩ : GoField) ::
        os2))))) =
    embedWalk reg (FieldList.ofList (os0 ++
      (⟨bname, "", btag, true, .strct (FieldList.ofList bfs)⟩ : GoField) ::
      (os1 ++ (⟨cname, "", ctag, true, .ptr (.strct (FieldList.ofList cfs))⟩ : GoField) ::
        os2))) [] 0 ⟨[], [], ""⟩ from rfl]
  rw [embedWalk_ofList_append]
  rw [embedWalk_plain reg os0 [] 0 [] [] hpl0 (by simp) hndA]
  show embedWalk reg (FieldList.ofList
      ((⟨bname, "", btag, true, .strct (FieldList.ofList bfs)⟩ : GoField) ::
      (os1 ++ (⟨cname, "", ctag, true, .ptr (.strct (FieldList.ofList cfs))⟩ : GoField) ::
        os2))) [] (0 + os0.length) ⟨visibleCols os0, plainEntries [] os0 0, ""⟩ = _
  rw [Nat.zero_add]
  -- enter the directly-embedded struct
  rw [show embedWalk reg (FieldList.ofList
      ((⟨bname, "", btag, true, .strct (FieldList.ofList bfs)⟩ : GoField) ::
      (os1 ++ (⟨cname, "", ctag, true, .ptr (.strct (FieldList.ofList cfs))⟩ : GoField) ::
        os2))) [] os0.length ⟨visibleCols os0, plainEntries [] os0 0, ""⟩ =
    (match embedWalk reg (FieldList.ofList bfs) [os0.length] 0
        ⟨visibleCols os0, plainEntries [] os0 0, ""⟩ with
    | .error e => .error e
    | .ok st' => embedWalk reg (FieldList.ofList
        (os1 ++ (⟨cname, "", ctag, true, .ptr (.strct (FieldList.ofList cfs))⟩ : GoField) ::
          os2)) [] (os0.length + 1) st') from rfl]
  rw [embedWalk_plain reg bfs [os0.length] 0 (visibleCols os0) (plainEntries [] os0 0) hplB
    (fun c hc => by rw [plainEntries_columns]; exact fun hA => hdAB hA hc) hndB]
  show embedWalk reg (FieldList.ofList
      (os1 ++ (⟨cname, "", ctag, true, .ptr (.strct (FieldList.ofList cfs))⟩ : GoField) ::
        os2)) [] (os0.length + 1)
      ⟨visibleCols os0 ++ visibleCols bfs,
       plainEntries [] os0 0 ++ plainEntries [os0.length] bfs 0, ""⟩ = _
  -- walk the middle outer fields
  rw [embedWalk_ofList_append]
  rw [embedWalk_plain reg os1 [] (os0.length + 1) (visibleCols os0 ++ visibleCols bfs)
    (plainEntries [] os0 0 ++ plainEntries [os0.length] bfs 0) hpl1
    (fun c hc => by
      rw [List.map_append, plainEntries_columns, plainEntries_columns]
      exact fun hmem => hdABC hmem hc) hndC]
  show embedWalk reg (FieldList.ofList
      ((⟨cname, "", ctag, true, .ptr (.strct (FieldList.ofList cfs))⟩ : GoField) :: os2))
      [] (os0.length + 1 + os1.length)
      ⟨visibleCols os0 ++ visibleCols bfs ++ visibleCols os1,
       plainEntries [] os0 0 ++ plainEntries [os0.length] bfs 0 ++
         plainEntries [] os1 (os0.length + 1), ""⟩ = _
  -- enter the pointer-embedded struct
  rw [show embedWalk reg (FieldList.ofList
      ((⟨cname, "", ctag, true, .ptr (.strct (FieldList.ofList cfs))⟩ : GoField) :: os2))
      [] (os0.length + 1 + os1.length)
      ⟨visibleCols os0 ++ visibleCols bfs ++ visibleCols os1,
       plainEntries [] os0 0 ++ plainEntries [os0.length] bfs 0 ++
         plainEntries [] os1 (os0.length + 1), ""⟩ =
    (match embedWalk reg (FieldList.ofList cfs) [os0.length + 1 + os1.length] 0
        ⟨visibleCols os0 ++ visibleCols bfs ++ visibleCols os1,
         plainEntries [] os0 0 ++ plainEntries [os0.length] bfs 0 ++
           plainEntries [] os1 (os0.length + 1), ""⟩ with
    | .error e => .error e
    | .ok st' => embedWalk reg (FieldList.ofList os2) []
        (os0.length + 1 + os1.length + 1) st') from rfl]
  rw [embedWalk_plain reg cfs [os0.length + 1 + os1.length] 0
    (visibleCols os0 ++ visibleCols bfs ++ visibleCols os1)
    (plainEntries [] os0 0 ++ plainEntries [os0.length] bfs 0 ++
      plainEntries [] os1 (os0.length + 1)) hplC
    (fun c hc => by
      rw [List.map_append, List.map_append, plainEntries_columns, plainEntries_columns,
        plainEntries_columns]
      exact fun hmem => hdABCD hmem hc) hndD]
  show embedWalk reg (FieldList.ofList os2) [] (os0.length + 1 + os1.length + 1)
      ⟨visibleCols os0 ++ visibleCols bfs ++ visibleCols os1 ++ visibleCols cfs,
       plainEntries [] os0 0 ++ plainEntries [os0.length] bfs 0 ++
         plainEntries [] os1 (os0.length + 1) ++
         plainEntries [os0.length + 1 + os1.length] cfs 0, ""⟩ = _
  -- walk the trailing outer fields
  rw [embedWalk_plain reg os2 [] (os0.length + 1 + os1.length + 1)
    (visibleCols os0 ++ visibleCols bfs ++ visibleCols os1 ++ visibleCols cfs)
    (plainEntries [] os0 0 ++ plainEntries [os0.length] bfs 0 ++
      plainEntries [] os1 (os0.length + 1) ++
      plainEntries [os0.length + 1 + os1.length] cfs 0) hpl2
    (fun c hc => by
      rw [List.map_append, List.map_append, List.map_append, plainEntries_columns,
        plainEntries_columns, plainEntries_columns, plainEntries_columns]
      exact fun hmem => hdABCDE hmem hc) hndE]

/-- Witness for C1 on the `EmbedPerson` shape of `embed_test.go` (outer
struct, embedded `Metadata`, which itself embeds `*SubMeta`): the claim
theorem applied to a one-level instance — outer plain fields, an embedded
struct and an embedded pointer-to-struct. -/
theorem getFieldsEmbed_flattens_witness :
    (∀ f ∈ ([⟨"Email", "", "", false, .prim .stringK⟩] ++ [] ++
        [⟨"Age", "", "age", false, .prim .intK⟩] ++
        [⟨"Name", "", "name", false, .prim .stringK⟩] ++
        [⟨"Height", "", "height", false, .ptr (.prim .intK)⟩] : List GoField),
      simplePlain f = true) ∧
    getFieldsEmbed defaultRegistry (.ptr (.strct (FieldList.ofList
        ([⟨"Email", "", "", false, .prim .stringK⟩] ++
         (⟨"Meta", "", "", true,
            .strct (FieldList.ofList [⟨"Name", "", "name", false, .prim .stringK⟩])⟩ :
           GoField) ::
         ([] ++
          (⟨"Sub", "", "", true,
             .ptr (.strct (FieldList.ofList
               [⟨"Height", "", "height", false, .ptr (.prim .intK)⟩]))⟩ : GoField) ::
          [⟨"Age", "", "age", false, .prim .intK⟩]))))) =
      .ok ⟨["Email", "name", "height", "age"],
        [⟨"Email", [0], false, "identity"⟩, ⟨"name", [1, 0], false, "identity"⟩,
         ⟨"height", [2, 0], false, "identity"⟩, ⟨"age", [3], false, "identity"⟩], ""⟩ :=
  ⟨by decide,
    getFieldsEmbed_flattens defaultRegistry
      [⟨"Email", "", "", false, .prim .stringK⟩] []
      [⟨"Age", "", "age", false, .prim .intK⟩]
      [⟨"Name", "", "name", false, .prim .stringK⟩]
      [⟨"Height", "", "height", false, .ptr (.prim .intK)⟩]
      "Meta" "Sub" "" "" (by decide) (by decide)⟩

/-- Witness for C9's amended theorem on a concrete row with one unmatched
column. -/
theorem scanRow_debug_observational_two_lines_witness :
    getFields defaultRegistry noPkType =
      .ok ⟨["name"], [⟨"name", 0, false, "identity"⟩], ""⟩ ∧
    (scanRow defaultRegistry false ⟨["name"], [⟨"name", 0, false, "identity"⟩], ""⟩
      ⟨["name", "extra"], [[.vstr "a", .vint 1]], none, false⟩
      ⟨noPkType, [.vstr ""]⟩ ["name", "extra"]).2.2 = [] :=
  ⟨rfl,
    (scanRow_debug_observational_two_lines defaultRegistry
      ⟨["name"], [⟨"name", 0, false, "identity"⟩], ""⟩
      ⟨["name", "extra"], [[.vstr "a", .vint 1]], none, false⟩
      ⟨noPkType, [.vstr ""]⟩ ["name", "extra"]
      ⟨["name"], [⟨"name", 0, false, "identity"⟩], ""⟩ rfl).1⟩

end meddler
